import Mathlib

/-! # Qualcomm APQ8016 clock driver and SDHCI bring-up

A shallow embedding of `arch/arm/mach-snapdragon/clock-apq8016.c` and
`drivers/mmc/msm_sdhci.c`.

* Memory-mapped registers are reached only through `readl`, `readw` and `writel`.  The hardware
  behind them is a `Device`: a state type with one transition per kind of access.  Every access is
  appended to a log, so that the order and the values of the register traffic can be stated.
* C integers are `Int` (for `int`) and `Nat` (for `uint32_t`, `ulong`); a conversion to `uint32_t`
  is `u32`, reduction modulo `2 ^ 32`.  Signed arithmetic is carried out in `Int` and reduced when
  it is stored, which agrees with C wherever C defines the result.
* A busy-wait loop (`while (readl(r) & BIT) ;`) takes a budget of poll reads; when the budget is
  spent the run ends in `Run.hang`, keeping the log of what was done until then.
-/

namespace Apq8016

/-! ## Register access -/

/-- One observable action of the driver. -/
inductive Access where
  | rd (addr val : Nat)
  | rdw (addr val : Nat)
  | wr (addr val : Nat)
  | delay (ms : Nat)
  | print
  deriving DecidableEq

/-- The hardware behind the register space: how its state answers and reacts to each access. -/
structure Device (σ : Type) where
  readl : σ → Nat → Nat × σ
  readw : σ → Nat → Nat × σ
  writel : σ → Nat → Nat → σ
  mdelay : σ → Nat → σ

/-- Hardware state together with the log of accesses made so far (oldest first). -/
structure World (σ : Type) where
  hw : σ
  log : List Access

/-- Outcome of a driver routine: it returned a value, or it is still spinning in a poll loop. -/
inductive Run (σ α : Type) where
  | ret (v : α) (w : World σ)
  | hang (w : World σ)

variable {σ α β : Type}

/-- The world in which a run ended. -/
def Run.world : Run σ α → World σ
  | Run.ret _ w => w
  | Run.hang w => w

/-- Sequencing: the continuation runs only when the first part returned. -/
def Run.bind (r : Run σ α) (f : α → World σ → Run σ β) : Run σ β :=
  match r with
  | Run.ret v w => f v w
  | Run.hang w => Run.hang w

/-- Conversion of a C integer value to `uint32_t`. -/
def u32 (x : Int) : Nat := (x % 4294967296).toNat

/-- Function `readl(addr)`: a 32-bit register read. -/
def readl (d : Device σ) (addr : Nat) (w : World σ) : Nat × World σ :=
  let r := d.readl w.hw addr
  let v := r.1 % 4294967296
  (v, World.mk r.2 (w.log ++ [Access.rd addr v]))

/-- Function `readw(addr)`: a 16-bit register read. -/
def readw (d : Device σ) (addr : Nat) (w : World σ) : Nat × World σ :=
  let r := d.readw w.hw addr
  let v := r.1 % 65536
  (v, World.mk r.2 (w.log ++ [Access.rdw addr v]))

/-- Function `writel(val, addr)`: a 32-bit register write. -/
def writel (d : Device σ) (val addr : Nat) (w : World σ) : World σ :=
  World.mk (d.writel w.hw (val % 4294967296) addr) (w.log ++ [Access.wr addr (val % 4294967296)])

/-- Function `mdelay(ms)`. -/
def mdelay (d : Device σ) (ms : Nat) (w : World σ) : World σ :=
  World.mk (d.mdelay w.hw ms) (w.log ++ [Access.delay ms])

/-- Function `printf(...)`: console output, no register of the modelled blocks is involved. -/
def printf (w : World σ) : World σ :=
  World.mk w.hw (w.log ++ [Access.print])

/-- The loop `while (busy (readl(addr))) ;` with a budget of `fuel` poll reads. -/
def spin (d : Device σ) (addr : Nat) (busy : Nat → Bool) : Nat → World σ → Run σ Unit
  | 0, w => Run.hang w
  | fuel + 1, w =>
    let r := readl d addr w
    if busy r.1 then spin d addr busy fuel r.2 else Run.ret () r.2

/-- The register writes of a log, as (address, value) pairs in the order they were made. -/
def writesOf : List Access → List (Nat × Nat)
  | [] => []
  | Access.wr a v :: l => (a, v) :: writesOf l
  | _ :: l => writesOf l

/-! ## clock-apq8016.c -/

def GPLL0_STATUS : Nat := 0x2101C
def GPLL0_STATUS_ACTIVE : Nat := 1 <<< 17
def APCS_GPLL_ENA_VOTE : Nat := 0x45000
def APCS_GPLL_ENA_VOTE_GPLL0 : Nat := 1 <<< 0

def SDCC_BCR (n : Nat) : Nat := n * 0x1000 + 0x41000
def SDCC_CMD_RCGR (n : Nat) : Nat := n * 0x1000 + 0x41004
def SDCC_CFG_RCGR (n : Nat) : Nat := n * 0x1000 + 0x41008
def SDCC_M (n : Nat) : Nat := n * 0x1000 + 0x4100C
def SDCC_N (n : Nat) : Nat := n * 0x1000 + 0x41010
def SDCC_D (n : Nat) : Nat := n * 0x1000 + 0x41014
def SDCC_APPS_CBCR (n : Nat) : Nat := n * 0x1000 + 0x41018
def SDCC_AHB_CBCR (n : Nat) : Nat := n * 0x1000 + 0x4101C

def BLSP1_AHB_CBCR : Nat := 0x1008
def BLSP1_UART2_BCR : Nat := 0x3028
def BLSP1_UART2_APPS_CBCR : Nat := 0x302C
def BLSP1_UART2_APPS_CMD_RCGR : Nat := 0x3034
def BLSP1_UART2_APPS_CFG_RCGR : Nat := 0x3038
def BLSP1_UART2_APPS_M : Nat := 0x303C
def BLSP1_UART2_APPS_N : Nat := 0x3040
def BLSP1_UART2_APPS_D : Nat := 0x3044

def CBCR_BRANCH_ENABLE_BIT : Nat := 1 <<< 0
def CBCR_BRANCH_OFF_BIT : Nat := 1 <<< 31

/-- Function `clk_enable_cbc`: enable a clock controlled by a CBC soft macro. -/
def clk_enable_cbc (d : Device σ) (fuel : Nat) (cbcr : Nat) (w : World σ) : Run σ Unit :=
  let r := readl d cbcr w
  let val := r.1 ||| CBCR_BRANCH_ENABLE_BIT
  let w1 := writel d val cbcr r.2
  spin d cbcr (fun v => v &&& CBCR_BRANCH_OFF_BIT != 0) fuel w1

/-- Function `clk_enable_gpll0`: vote for GPLL0 unless it is already active. -/
def clk_enable_gpll0 (d : Device σ) (fuel : Nat) (base : Nat) (w : World σ) : Run σ Unit :=
  let r := readl d (base + GPLL0_STATUS) w
  if r.1 &&& GPLL0_STATUS_ACTIVE != 0 then
    Run.ret () r.2
  else
    let e := readl d (base + APCS_GPLL_ENA_VOTE) r.2
    let ena := e.1 ||| APCS_GPLL_ENA_VOTE_GPLL0
    let w1 := writel d ena (base + APCS_GPLL_ENA_VOTE) e.2
    spin d (base + GPLL0_STATUS) (fun v => v &&& GPLL0_STATUS_ACTIVE == 0) fuel w1

def APPS_CMD_RGCR_UPDATE : Nat := 1 <<< 0

/-- Function `clk_bcr_update`: request a configuration update and wait until it is taken. -/
def clk_bcr_update (d : Device σ) (fuel : Nat) (apps_cmd_rgcr : Nat) (w : World σ) : Run σ Unit :=
  let r := readl d apps_cmd_rgcr w
  let cmd := r.1 ||| APPS_CMD_RGCR_UPDATE
  let w1 := writel d cmd apps_cmd_rgcr r.2
  spin d apps_cmd_rgcr (fun v => v &&& APPS_CMD_RGCR_UPDATE != 0) fuel w1

/-- Register offsets of one root clock generator (`struct bcr_regs`). -/
structure bcr_regs where
  cfg_rcgr : Nat
  cmd_rcgr : Nat
  M : Nat
  N : Nat
  D : Nat
  deriving DecidableEq

def CFG_MODE_DUAL_EDGE : Nat := 0x2 <<< 12
def CFG_CLK_SRC_CXO : Int := 0 * 2 ^ 8
def CFG_CLK_SRC_GPLL0 : Int := 1 * 2 ^ 8
def CFG_CLK_SRC_MASK : Nat := 7 <<< 8
def CFG_MASK : Int := 0x3FFF

/-- The macro `BM(msb, lsb)`, computed in `uint32_t`. -/
def BM (msb lsb : Nat) : Nat :=
  ((((4294967295 <<< (31 - msb)) % 4294967296) >>> (31 - msb + lsb)) <<< lsb) % 4294967296

/-- The macro `BVAL(msb, lsb, val)` for an `int` operand `val`. -/
def BVAL (msb lsb : Nat) (val : Int) : Nat :=
  u32 (val * 2 ^ lsb) &&& BM msb lsb

/-- The initialiser `uint32_t m_val = m`. -/
def rcg_m_val (m : Int) : Nat := u32 m

/-- The initialiser `uint32_t n_val = ~((n)-(m)) * !!(n)`. -/
def rcg_n_val (m n : Int) : Nat := u32 ((-(n - m) - 1) * (if n ≠ 0 then 1 else 0))

/-- The initialiser `uint32_t d_val = ~(n)`. -/
def rcg_d_val (n : Int) : Nat := u32 (-n - 1)

/-- The new configuration word computed from the one read back (`cfg &= ...; cfg |= ...`). -/
def rcg_cfg (cfg0 : Nat) (div source : Int) (n_val : Nat) : Nat :=
  let cfg := cfg0 &&& u32 (-CFG_MASK - 1)
  let cfg := cfg ||| (u32 source &&& CFG_CLK_SRC_MASK)
  let cfg := cfg ||| (BVAL 4 0 (2 * div - 1) ||| BVAL 10 8 source)
  if n_val ≠ 0 then cfg ||| CFG_MODE_DUAL_EDGE else cfg

/-- Function `clk_rcg_set_rate_mnd`: root set rate for clocks with half integer and MND divider. -/
def clk_rcg_set_rate_mnd (d : Device σ) (fuel : Nat) (base : Nat) (regs : bcr_regs)
    (div m n source : Int) (w : World σ) : Run σ Unit :=
  let m_val := rcg_m_val m
  let n_val := rcg_n_val m n
  let d_val := rcg_d_val n
  let w1 := writel d m_val (base + regs.M) w
  let w2 := writel d n_val (base + regs.N) w1
  let w3 := writel d d_val (base + regs.D) w2
  let r := readl d (base + regs.cfg_rcgr) w3
  let cfg := rcg_cfg r.1 div source n_val
  let w4 := writel d cfg (base + regs.cfg_rcgr) r.2
  clk_bcr_update d fuel (base + regs.cmd_rcgr) w4

/-- Whether a run came back to its caller. -/
def Run.returned : Run σ α → Bool
  | Run.ret _ _ => true
  | Run.hang _ => false

/-- The value a run returned, if it returned. -/
def Run.value : Run σ α → Option α
  | Run.ret v _ => some v
  | Run.hang _ => none

/-- The table `sdc_regs[]`: two entries, built from the `SDCC_*` macros at `n = 1` and `n = 2`. -/
def sdc_regs : Fin 2 → bcr_regs
  | 0 => { cfg_rcgr := SDCC_CFG_RCGR 1, cmd_rcgr := SDCC_CMD_RCGR 1,
           M := SDCC_M 1, N := SDCC_N 1, D := SDCC_D 1 }
  | 1 => { cfg_rcgr := SDCC_CFG_RCGR 2, cmd_rcgr := SDCC_CMD_RCGR 2,
           M := SDCC_M 2, N := SDCC_N 2, D := SDCC_D 2 }

/-- Conversion of a `uint` value to `int` (two's complement, as the compilers of U-Boot do). -/
def int_of_uint (x : Nat) : Int :=
  if x % 4294967296 < 2147483648 then ((x % 4294967296 : Nat) : Int)
  else ((x % 4294967296 : Nat) : Int) - 4294967296

/-- Conversion of an `int` value to `ulong`, for a `long` of `bits` bits. -/
def ulong_of_int (bits : Nat) (x : Int) : Nat := (x % 2 ^ bits).toNat

/-- Function `clk_init_sdc`: init clock for the SDHCI controller.  The slot indexes the
two-entry table `sdc_regs`; `rate` is a `uint`, the result an `int`. -/
def clk_init_sdc (d : Device σ) (fuel : Nat) (base : Nat) (slot : Fin 2) (rate : Nat)
    (w : World σ) : Run σ Int :=
  let div : Int := if rate = 200000000 then 4 else 8
  (clk_enable_cbc d fuel (base + SDCC_AHB_CBCR slot.val) w).bind fun _ w1 =>
  (clk_rcg_set_rate_mnd d fuel base (sdc_regs slot) div 0 0 CFG_CLK_SRC_GPLL0 w1).bind fun _ w2 =>
  (clk_enable_gpll0 d fuel base w2).bind fun _ w3 =>
  (clk_enable_cbc d fuel (base + SDCC_APPS_CBCR slot.val) w3).bind fun _ w4 =>
  Run.ret (int_of_uint rate) w4

/-- The constant `uart2_regs`. -/
def uart2_regs : bcr_regs :=
  { cfg_rcgr := BLSP1_UART2_APPS_CFG_RCGR, cmd_rcgr := BLSP1_UART2_APPS_CMD_RCGR,
    M := BLSP1_UART2_APPS_M, N := BLSP1_UART2_APPS_N, D := BLSP1_UART2_APPS_D }

/-- Function `clk_init_uart`: init UART clock, 115200. -/
def clk_init_uart (d : Device σ) (fuel : Nat) (base : Nat) (w : World σ) : Run σ Int :=
  (clk_enable_cbc d fuel (base + BLSP1_AHB_CBCR) w).bind fun _ w1 =>
  (clk_rcg_set_rate_mnd d fuel base uart2_regs 1 144 15625 CFG_CLK_SRC_GPLL0 w1).bind fun _ w2 =>
  (clk_enable_gpll0 d fuel base w2).bind fun _ w3 =>
  (clk_enable_cbc d fuel (base + BLSP1_UART2_APPS_CBCR) w3).bind fun _ w4 =>
  Run.ret 0 w4

/-- Function `msm_set_periph_rate`.  `BITS_PER_LONG` is the width of `ulong` on the target; the
argument `rate` is narrowed to `uint` at the call of `clk_init_sdc`, and the `int` result of the
callee is widened to `ulong` at the `return`. -/
def msm_set_periph_rate (d : Device σ) (fuel : Nat) (base : Nat) (BITS_PER_LONG : Nat)
    (periph : Int) (rate : Nat) (w : World σ) : Run σ Nat :=
  if periph = 0 then
    (clk_init_sdc d fuel base 0 (rate % 4294967296) w).bind fun r w1 =>
      Run.ret (ulong_of_int BITS_PER_LONG r) w1
  else if periph = 1 then
    (clk_init_sdc d fuel base 1 (rate % 4294967296) w).bind fun r w1 =>
      Run.ret (ulong_of_int BITS_PER_LONG r) w1
  else if periph = 4 then
    (clk_init_uart d fuel base w).bind fun r w1 =>
      Run.ret (ulong_of_int BITS_PER_LONG r) w1
  else
    Run.ret 0 w

/-! ## msm_sdhci.c -/

def SDCC_MCI_POWER : Nat := 0x0
def SDCC_MCI_POWER_SW_RST : Nat := 1 <<< 7
def SDCC_MCI_VERSION : Nat := 0x50
def SDCC_MCI_VERSION_MAJOR_SHIFT : Nat := 28
def SDCC_MCI_VERSION_MAJOR_MASK : Nat := u32 (0xf * 2 ^ SDCC_MCI_VERSION_MAJOR_SHIFT)
def SDCC_MCI_VERSION_MINOR_MASK : Nat := 0xff
def SDCC_MCI_HC_MODE : Nat := 0x78
def SDCC_SDHCI_OFFSET : Nat := 0x900
def SDHCI_VENDOR_SPEC_CAPABILITIES0 : Nat := 0x11c

/-- The constants of `sdhci.h` and `errno.h` that the driver uses.  The headers are outside the
two translated files, so every result below holds for arbitrary values of them. -/
structure SdhciHeader where
  SDHCI_CAPABILITIES : Nat
  SDHCI_CAN_VDD_300 : Nat
  SDHCI_CAN_DO_8BIT : Nat
  SDHCI_HOST_VERSION : Nat
  SDHCI_QUIRK_WAIT_SEND_CMD : Nat
  SDHCI_QUIRK_BROKEN_R1B : Nat
  EIO_code : Int

/-- The fields of `struct sdhci_host` that the driver sets or uses. -/
structure sdhci_host where
  quirks : Nat
  version : Nat
  ioaddr : Nat
  deriving DecidableEq

/-- Function `msm_sdc_clk_init`.  The device-tree lookups do not touch any register: their
results are the arguments `clk_rate` (property "clock-frequency") and `clkd1` (second cell of
"clock"); `clk` is the `set_periph_rate` operation of the clock device that was found, or `none`
when the lookup left the pointer `NULL`. -/
def msm_sdc_clk_init (clk : Option (Int → Nat → World σ → Run σ Nat)) (clkd1 clk_rate : Nat)
    (w : World σ) : Run σ Int :=
  match clk with
  | some clk_set_periph_rate =>
    (clk_set_periph_rate (int_of_uint clkd1) clk_rate w).bind fun _ w1 => Run.ret 0 w1
  | none => Run.ret 0 w

/-- Function `msm_sdc_probe`.  `base` is `prv->base`, `ioaddr` is `host->ioaddr`; `add_sdhci` is
the core routine the driver ends with, called with the host structure as the driver filled it. -/
def msm_sdc_probe (d : Device σ) (H : SdhciHeader)
    (clk : Option (Int → Nat → World σ → Run σ Nat)) (clkd1 clk_rate : Nat)
    (add_sdhci : sdhci_host → World σ → Run σ Int) (base ioaddr : Nat) (w : World σ) :
    Run σ Int :=
  let quirks := H.SDHCI_QUIRK_WAIT_SEND_CMD ||| H.SDHCI_QUIRK_BROKEN_R1B
  (msm_sdc_clk_init clk clkd1 clk_rate w).bind fun r w0 =>
  if r ≠ 0 then Run.ret (- H.EIO_code) w0
  else
    let p := readl d (base + SDCC_MCI_POWER) w0
    let w1 := writel d (p.1 ||| SDCC_MCI_POWER_SW_RST) (base + SDCC_MCI_POWER) p.2
    let w2 := mdelay d 2 w1
    let q := readl d (base + SDCC_MCI_POWER) w2
    if q.1 &&& SDCC_MCI_POWER_SW_RST ≠ 0 then
      Run.ret (-1) (printf q.2)
    else
      let w3 := writel d 1 (base + SDCC_MCI_HC_MODE) q.2
      let v := readl d (base + SDCC_MCI_VERSION) w3
      let core_major := (v.1 &&& SDCC_MCI_VERSION_MAJOR_MASK) >>> SDCC_MCI_VERSION_MAJOR_SHIFT
      let core_minor := v.1 &&& SDCC_MCI_VERSION_MINOR_MASK
      let w4 :=
        if core_major ≥ 1 ∧ core_minor ≠ 0x11 ∧ core_minor ≠ 0x12 then
          let c := readl d (ioaddr + H.SDHCI_CAPABILITIES) v.2
          let caps := c.1 ||| (H.SDHCI_CAN_VDD_300 ||| H.SDHCI_CAN_DO_8BIT)
          writel d caps (ioaddr + SDHCI_VENDOR_SPEC_CAPABILITIES0) c.2
        else v.2
      let hv := readw d (ioaddr + H.SDHCI_HOST_VERSION) w4
      add_sdhci { quirks := quirks, version := hv.1, ioaddr := ioaddr } hv.2

/-- Function `msm_sdc_remove`: disable host-controller mode. -/
def msm_sdc_remove (d : Device σ) (base : Nat) (w : World σ) : Int × World σ :=
  (0, writel d 0 (base + SDCC_MCI_HC_MODE) w)

/-! ## Register spaces for the examples -/

/-- The hardware state after `k` successive reads of the register at `addr`. -/
def afterReads (d : Device σ) (addr : Nat) : Nat → σ → σ
  | 0, s => s
  | k + 1, s => afterReads d addr k (d.readl s addr).2

/-- The value that the read number `k` (counted from 0) of the register at `addr` returns. -/
def pollValue (d : Device σ) (addr : Nat) (k : Nat) (s : σ) : Nat :=
  (d.readl (afterReads d addr k s) addr).1 % 4294967296

/-- Base address of the clock controller in the examples. -/
def simClkBase : Nat := 0x1800000

/-- Base address of the SD controller core in the examples. -/
def simMmcBase : Nat := 0x7824000

/-- Base address of the SDHCI register window in the examples. -/
def simMmcIoaddr : Nat := simMmcBase + SDCC_SDHCI_OFFSET

/-- Bits that the simulated hardware clears by itself as soon as they are written: the update
request of the three command registers and the software reset of the SD controller. -/
def simSelfClearing (a : Nat) : Nat :=
  if a = simClkBase + SDCC_CMD_RCGR 1 ∨ a = simClkBase + SDCC_CMD_RCGR 2
      ∨ a = simClkBase + BLSP1_UART2_APPS_CMD_RCGR then 1
  else if a = simMmcBase + SDCC_MCI_POWER then 128
  else 0

/-- A register space that stores what is written, clears the self-clearing bits, and reports
GPLL0 as active once its vote bit has been written. -/
def simDevice : Device (Nat → Nat) where
  readl s a := (s a, s)
  readw s a := (s a, s)
  writel s v a := fun x =>
    if x = a then v &&& (4294967295 ^^^ simSelfClearing a)
    else if x = simClkBase + GPLL0_STATUS ∧ a = simClkBase + APCS_GPLL_ENA_VOTE ∧ v &&& 1 ≠ 0 then
      s x ||| GPLL0_STATUS_ACTIVE
    else s x
  mdelay s _ := s

/-- The simulated register space after reset: all zero but for the core version register. -/
def simWorld : World (Nat → Nat) :=
  { hw := fun a => if a = simMmcBase + SDCC_MCI_VERSION then 0x10000042 else 0, log := [] }

/-- The values of the header constants used in the examples. -/
def simHeader : SdhciHeader :=
  { SDHCI_CAPABILITIES := 0x40, SDHCI_CAN_VDD_300 := 0x02000000, SDHCI_CAN_DO_8BIT := 0x00040000,
    SDHCI_HOST_VERSION := 0xFE, SDHCI_QUIRK_WAIT_SEND_CMD := 1 <<< 6,
    SDHCI_QUIRK_BROKEN_R1B := 1 <<< 2, EIO_code := 5 }

/-- A stand-in for the core routine: it reports success and touches nothing. -/
def simAddSdhci (_ : sdhci_host) (w : World (Nat → Nat)) : Run (Nat → Nat) Int := Run.ret 0 w

/-- A register space whose every register reads "busy" (branch off, PLL inactive, update pending)
for the first `N` reads after a write and "ready" from then on; the state counts the reads made
since the last write. -/
def flipDevice (N : Nat) : Device Nat where
  readl s _ := (if s < N then 0x80000001 else 0x20000, s + 1)
  readw s _ := (0, s)
  writel _ _ _ := 0
  mdelay s _ := s

/-! ## Auxiliary facts -/

theorem u32_lt (x : Int) : u32 x < 4294967296 := by
  unfold u32; omega

theorem compl32_eq_xor (k : Nat) (hk : k < 4294967296) : 4294967295 - k = 4294967295 ^^^ k := by
  apply Nat.eq_of_testBit_eq
  intro i
  have h1 : 4294967295 - k = 2 ^ 32 - (k + 1) := by omega
  have h2 : (4294967295 : Nat) = 2 ^ 32 - 1 := by norm_num
  have hk2 : k < 2 ^ 32 := by norm_num; exact hk
  rw [h1, Nat.testBit_two_pow_sub_succ hk2, Nat.testBit_xor, h2, Nat.testBit_two_pow_sub_one]
  by_cases hi : i < 32
  · simp [hi]
  · have : k.testBit i = false :=
      Nat.testBit_lt_two_pow (lt_of_lt_of_le hk2
        (Nat.pow_le_pow_right (by norm_num) (by omega)))
    simp [hi, this]

theorem spin_log (d : Device σ) (addr : Nat) (busy : Nat → Bool) (fuel : Nat) (w : World σ) :
    ∃ polls, (spin d addr busy fuel w).world.log = w.log ++ polls ∧
      ∀ a ∈ polls, ∃ v, a = Access.rd addr v := by
  induction fuel generalizing w with
  | zero => exact ⟨[], by simp [spin, Run.world]⟩
  | succ k ih =>
    unfold spin
    simp only
    split
    · obtain ⟨polls, h1, h2⟩ := ih (readl d addr w).2
      refine ⟨Access.rd addr (readl d addr w).1 :: polls, ?_, ?_⟩
      · rw [h1]; simp [readl]
      · intro a ha
        rcases List.mem_cons.1 ha with h | h
        · exact ⟨_, h⟩
        · exact h2 a h
    · exact ⟨[Access.rd addr (readl d addr w).1], by simp [Run.world, readl], by simp⟩

theorem BM_4_0 : BM 4 0 = 31 := by decide

theorem BM_10_8 : BM 10 8 = 1792 := by decide

theorem u32_not_CFG_MASK : u32 (-CFG_MASK - 1) = 4294950912 := by decide

theorem rcg_cfg_low (c : Nat) (div source : Int) (nv : Nat) :
    rcg_cfg c div source nv &&& 31 = u32 (2 * div - 1) % 32 := by
  have h32 : ∀ x : Nat, x &&& 31 = x % 32 := fun x => Nat.and_pow_two_sub_one_eq_mod x 5
  have e1 : (4294950912 : Nat) &&& 31 = 0 := by decide
  have e2 : (1792 : Nat) &&& 31 = 0 := by decide
  have e3 : (8192 : Nat) &&& 31 = 0 := by decide
  unfold rcg_cfg BVAL
  simp only [BM_4_0, BM_10_8, u32_not_CFG_MASK, CFG_CLK_SRC_MASK, CFG_MODE_DUAL_EDGE]
  split <;> simp [Nat.and_distrib_right, Nat.and_assoc, e1, e2, e3] <;> exact h32 _

theorem or_and_self_right (a b : Nat) : (a ||| b) &&& b = b := by
  apply Nat.eq_of_testBit_eq
  intro i
  simp only [Nat.testBit_and, Nat.testBit_or]
  cases a.testBit i <;> cases b.testBit i <;> rfl

theorem rcg_cfg_mode_set (c : Nat) (div source : Int) (nv : Nat) (h : nv ≠ 0) :
    rcg_cfg c div source nv &&& 8192 = 8192 := by
  have e : CFG_MODE_DUAL_EDGE = 8192 := by decide
  unfold rcg_cfg
  simp only [if_pos h, e]
  exact or_and_self_right _ _

theorem rcg_cfg_mode_clear (c : Nat) (div source : Int) :
    rcg_cfg c div source 0 &&& 8192 = 0 := by
  have e1 : (4294950912 : Nat) &&& 8192 = 0 := by decide
  have e2 : (1792 : Nat) &&& 8192 = 0 := by decide
  have e3 : (31 : Nat) &&& 8192 = 0 := by decide
  unfold rcg_cfg BVAL
  simp [BM_4_0, BM_10_8, u32_not_CFG_MASK, CFG_CLK_SRC_MASK, Nat.and_distrib_right,
    Nat.and_assoc, e1, e2, e3]

theorem rcg_cfg_frame (c : Nat) (div source : Int) (nv : Nat) :
    rcg_cfg c div source nv &&& 4294950912 = c &&& 4294950912 := by
  have e1 : (8192 : Nat) &&& 4294950912 = 0 := by decide
  have e2 : (1792 : Nat) &&& 4294950912 = 0 := by decide
  have e3 : (31 : Nat) &&& 4294950912 = 0 := by decide
  unfold rcg_cfg BVAL
  simp only [BM_4_0, BM_10_8, u32_not_CFG_MASK, CFG_CLK_SRC_MASK, CFG_MODE_DUAL_EDGE]
  split <;> simp [Nat.and_distrib_right, Nat.and_assoc, e1, e2, e3]

theorem rcg_cfg_unused (c : Nat) (div source : Int) (nv : Nat) :
    rcg_cfg c div source nv &&& 6368 = 0 := by
  have e0 : (4294950912 : Nat) &&& 6368 = 0 := by decide
  have e1 : (8192 : Nat) &&& 6368 = 0 := by decide
  have e2 : (1792 : Nat) &&& 6368 = 0 := by decide
  have e3 : (31 : Nat) &&& 6368 = 0 := by decide
  unfold rcg_cfg BVAL
  simp only [BM_4_0, BM_10_8, u32_not_CFG_MASK, CFG_CLK_SRC_MASK, CFG_MODE_DUAL_EDGE]
  split <;> simp [Nat.and_distrib_right, Nat.and_assoc, e0, e1, e2, e3]

theorem src_field_shape (t : Nat) (h : t &&& 1792 = t) : ∃ k, k < 8 ∧ t = k * 256 := by
  have h1 : t % 256 = 0 := by
    have e : (1792 : Nat) &&& 255 = 0 := by decide
    have : t &&& 255 = 0 := by rw [← h, Nat.and_assoc, e, Nat.and_zero]
    rw [← this]
    exact (Nat.and_pow_two_sub_one_eq_mod t 8).symm
  have h2 : t ≤ 1792 := by rw [← h]; exact Nat.and_le_right
  exact ⟨t / 256, by omega, by omega⟩

theorem rcg_cfg_src (c : Nat) (div source : Int) (nv : Nat) (h0 : 0 ≤ source)
    (h : source.toNat &&& 1792 = source.toNat) :
    rcg_cfg c div source nv &&& 1792 = source.toNat := by
  obtain ⟨k, hk, hs⟩ := src_field_shape _ h
  have hsrc : source = (k : Int) * 256 := by omega
  have u1 : u32 source = k * 256 := by unfold u32; omega
  have u2 : u32 (source * 2 ^ 8) = k * 65536 := by unfold u32; omega
  have e0 : (4294950912 : Nat) &&& 1792 = 0 := by decide
  have e1 : (8192 : Nat) &&& 1792 = 0 := by decide
  have e3 : (31 : Nat) &&& 1792 = 0 := by decide
  have e4 : k * 65536 &&& 1792 = 0 := by interval_cases k <;> decide
  have e5 : k * 256 &&& 1792 = k * 256 := by interval_cases k <;> decide
  unfold rcg_cfg BVAL
  simp only [BM_4_0, BM_10_8, u32_not_CFG_MASK, CFG_CLK_SRC_MASK, CFG_MODE_DUAL_EDGE, u1, u2]
  split <;> simp [Nat.and_distrib_right, Nat.and_assoc, e0, e1, e3, e4, e5] <;> omega

theorem rcg_cfg_lt (c : Nat) (div source : Int) (nv : Nat) (hc : c < 4294967296) :
    rcg_cfg c div source nv < 4294967296 := by
  have p : (4294967296 : Nat) = 2 ^ 32 := by norm_num
  have a1 : c &&& u32 (-CFG_MASK - 1) < 2 ^ 32 :=
    lt_of_le_of_lt Nat.and_le_left (p ▸ hc)
  have a2 : u32 source &&& CFG_CLK_SRC_MASK < 2 ^ 32 :=
    lt_of_le_of_lt Nat.and_le_left (p ▸ u32_lt _)
  have a3 : BVAL 4 0 (2 * div - 1) < 2 ^ 32 :=
    lt_of_le_of_lt Nat.and_le_left (p ▸ u32_lt _)
  have a4 : BVAL 10 8 source < 2 ^ 32 :=
    lt_of_le_of_lt Nat.and_le_left (p ▸ u32_lt _)
  have a5 : CFG_MODE_DUAL_EDGE < 2 ^ 32 := by decide
  unfold rcg_cfg
  simp only
  rw [p]
  split
  · exact Nat.or_lt_two_pow (Nat.or_lt_two_pow (Nat.or_lt_two_pow a1 a2)
      (Nat.or_lt_two_pow a3 a4)) a5
  · exact Nat.or_lt_two_pow (Nat.or_lt_two_pow a1 a2) (Nat.or_lt_two_pow a3 a4)

theorem or_one_lt (x : Nat) (hx : x < 4294967296) : x ||| 1 < 4294967296 := by
  have p : (4294967296 : Nat) = 2 ^ 32 := by norm_num
  rw [p] at hx ⊢
  exact Nat.or_lt_two_pow hx (by norm_num)

theorem clk_bcr_update_log (d : Device σ) (fuel a : Nat) (w : World σ) :
    ∃ x polls, x < 4294967296 ∧
      (clk_bcr_update d fuel a w).world.log
        = w.log ++ [Access.rd a x, Access.wr a (x ||| 1)] ++ polls ∧
      ∀ e ∈ polls, ∃ v, e = Access.rd a v := by
  unfold clk_bcr_update
  simp only
  obtain ⟨polls, h1, h2⟩ := spin_log d a (fun v => v &&& APPS_CMD_RGCR_UPDATE != 0) fuel
    (writel d ((readl d a w).1 ||| APPS_CMD_RGCR_UPDATE) a (readl d a w).2)
  have hx : (readl d a w).1 < 4294967296 := Nat.mod_lt _ (by norm_num)
  refine ⟨(readl d a w).1, polls, hx, ?_, h2⟩
  rw [h1]
  have := or_one_lt _ hx
  simp [writel, readl, APPS_CMD_RGCR_UPDATE, Nat.mod_eq_of_lt this]
  simpa [readl] using Nat.mod_eq_of_lt this

theorem clk_rcg_set_rate_mnd_log (d : Device σ) (fuel base : Nat) (regs : bcr_regs)
    (div m n source : Int) (w : World σ) :
    ∃ c x polls, c < 4294967296 ∧ x < 4294967296 ∧
      (clk_rcg_set_rate_mnd d fuel base regs div m n source w).world.log
        = w.log ++ [Access.wr (base + regs.M) (rcg_m_val m),
                    Access.wr (base + regs.N) (rcg_n_val m n),
                    Access.wr (base + regs.D) (rcg_d_val n),
                    Access.rd (base + regs.cfg_rcgr) c,
                    Access.wr (base + regs.cfg_rcgr) (rcg_cfg c div source (rcg_n_val m n)),
                    Access.rd (base + regs.cmd_rcgr) x,
                    Access.wr (base + regs.cmd_rcgr) (x ||| 1)] ++ polls ∧
      ∀ e ∈ polls, ∃ v, e = Access.rd (base + regs.cmd_rcgr) v := by
  unfold clk_rcg_set_rate_mnd
  simp only
  generalize hw3 : writel d (rcg_d_val n) (base + regs.D)
    (writel d (rcg_n_val m n) (base + regs.N) (writel d (rcg_m_val m) (base + regs.M) w)) = w3
  have hl3 : w3.log = w.log ++ [Access.wr (base + regs.M) (rcg_m_val m),
      Access.wr (base + regs.N) (rcg_n_val m n), Access.wr (base + regs.D) (rcg_d_val n)] := by
    rw [← hw3]
    simp [writel, rcg_m_val, rcg_n_val, rcg_d_val, Nat.mod_eq_of_lt (u32_lt _)]
  have hc : (readl d (base + regs.cfg_rcgr) w3).1 < 4294967296 := Nat.mod_lt _ (by norm_num)
  obtain ⟨x, polls, hx, h1, h2⟩ := clk_bcr_update_log d fuel (base + regs.cmd_rcgr)
    (writel d (rcg_cfg (readl d (base + regs.cfg_rcgr) w3).1 div source (rcg_n_val m n))
      (base + regs.cfg_rcgr) (readl d (base + regs.cfg_rcgr) w3).2)
  refine ⟨(readl d (base + regs.cfg_rcgr) w3).1, x, polls, hc, hx, ?_, h2⟩
  rw [h1]
  have hlt := rcg_cfg_lt (readl d (base + regs.cfg_rcgr) w3).1 div source (rcg_n_val m n) hc
  simp only [writel, Nat.mod_eq_of_lt hlt]
  simp [readl, hl3]

/-! ### Logs and poll loops -/

theorem writesOf_append (l1 l2 : List Access) :
    writesOf (l1 ++ l2) = writesOf l1 ++ writesOf l2 := by
  induction l1 with
  | nil => rfl
  | cons a l ih => cases a <;> simp [writesOf, ih]

theorem writesOf_reads (a : Nat) (polls : List Access)
    (h : ∀ e ∈ polls, ∃ v, e = Access.rd a v) : writesOf polls = [] := by
  induction polls with
  | nil => rfl
  | cons e l ih =>
    obtain ⟨v, hv⟩ := h e (List.mem_cons_self _ _)
    subst hv
    simp only [writesOf]
    exact ih (fun e he => h e (List.mem_cons_of_mem _ he))

theorem spin_returned (d : Device σ) (addr : Nat) (busy : Nat → Bool) (fuel : Nat) (w : World σ)
    (h : (spin d addr busy fuel w).returned = true) :
    ∃ polls s, (spin d addr busy fuel w).world.log
        = w.log ++ polls ++ [Access.rd addr ((d.readl s addr).1 % 4294967296)] ∧
      (spin d addr busy fuel w).world.hw = (d.readl s addr).2 ∧
      busy ((d.readl s addr).1 % 4294967296) = false ∧
      ∀ e ∈ polls, ∃ v, e = Access.rd addr v ∧ busy v = true := by
  induction fuel generalizing w with
  | zero => simp [spin, Run.returned] at h
  | succ k ih =>
    unfold spin at h ⊢
    simp only at h ⊢
    by_cases hb : busy (readl d addr w).1 = true
    · rw [if_pos hb] at h ⊢
      obtain ⟨polls, s, h1, h2, h3, h4⟩ := ih (readl d addr w).2 h
      refine ⟨Access.rd addr (readl d addr w).1 :: polls, s, ?_, h2, h3, ?_⟩
      · rw [h1]; simp [readl]
      · intro e he
        rcases List.mem_cons.1 he with h5 | h5
        · exact ⟨_, h5, hb⟩
        · exact h4 e h5
    · rw [if_neg hb]
      refine ⟨[], w.hw, by simp [Run.world, readl], by simp [Run.world, readl], ?_, by simp⟩
      simpa [readl] using hb

theorem spin_first (d : Device σ) (addr : Nat) (busy : Nat → Bool) (N fuel : Nat) (w : World σ)
    (hN : busy (pollValue d addr N w.hw) = false)
    (hlt : ∀ k, k < N → busy (pollValue d addr k w.hw) = true) (hf : N < fuel) :
    spin d addr busy fuel w = Run.ret () (World.mk (afterReads d addr (N + 1) w.hw)
      (w.log ++ (List.range (N + 1)).map (fun k => Access.rd addr (pollValue d addr k w.hw)))) := by
  induction N generalizing fuel w with
  | zero =>
    obtain ⟨f, rfl⟩ : ∃ f, fuel = f + 1 := ⟨fuel - 1, by omega⟩
    have hb : ¬ busy (readl d addr w).1 = true := by
      have : (readl d addr w).1 = pollValue d addr 0 w.hw := rfl
      rw [this, hN]; simp
    unfold spin
    simp only [if_neg hb]
    rfl
  | succ n ih =>
    obtain ⟨f, rfl⟩ : ∃ f, fuel = f + 1 := ⟨fuel - 1, by omega⟩
    have hb : busy (readl d addr w).1 = true := hlt 0 (by omega)
    unfold spin
    simp only [if_pos hb]
    have e : ∀ k, pollValue d addr k (readl d addr w).2.hw = pollValue d addr (k + 1) w.hw :=
      fun _ => rfl
    rw [ih f (readl d addr w).2 (by rw [e]; exact hN)
      (fun k hk => by rw [e]; exact hlt (k + 1) (by omega)) (by omega)]
    have e2 : afterReads d addr (n + 1) (readl d addr w).2.hw = afterReads d addr (n + 1 + 1) w.hw :=
      rfl
    rw [e2, List.range_succ_eq_map (n + 1)]
    simp [readl, e, pollValue, afterReads, Function.comp_def]

/-! ### Register traffic of the clock routines -/

theorem readl_lt (d : Device σ) (a : Nat) (w : World σ) : (readl d a w).1 < 4294967296 :=
  Nat.mod_lt _ (by norm_num)

theorem readl_log (d : Device σ) (a : Nat) (w : World σ) :
    (readl d a w).2.log = w.log ++ [Access.rd a (readl d a w).1] := rfl

theorem writel_log (d : Device σ) (v a : Nat) (w : World σ) (hv : v < 4294967296) :
    (writel d v a w).log = w.log ++ [Access.wr a v] := by
  simp [writel, Nat.mod_eq_of_lt hv]

theorem clk_enable_cbc_log (d : Device σ) (fuel a : Nat) (w : World σ) :
    ∃ polls, (clk_enable_cbc d fuel a w).world.log
        = w.log ++ [Access.rd a (readl d a w).1, Access.wr a ((readl d a w).1 ||| 1)] ++ polls ∧
      ∀ e ∈ polls, ∃ v, e = Access.rd a v := by
  unfold clk_enable_cbc
  simp only
  obtain ⟨polls, h1, h2⟩ := spin_log d a (fun v => v &&& CBCR_BRANCH_OFF_BIT != 0) fuel
    (writel d ((readl d a w).1 ||| CBCR_BRANCH_ENABLE_BIT) a (readl d a w).2)
  refine ⟨polls, ?_, h2⟩
  have e : CBCR_BRANCH_ENABLE_BIT = 1 := by decide
  rw [h1, e, writel_log d _ a _ (or_one_lt _ (readl_lt d a w)), readl_log]
  simp

theorem clk_enable_gpll0_active (d : Device σ) (fuel base : Nat) (w : World σ)
    (h : (readl d (base + GPLL0_STATUS) w).1 &&& GPLL0_STATUS_ACTIVE ≠ 0) :
    clk_enable_gpll0 d fuel base w = Run.ret () (readl d (base + GPLL0_STATUS) w).2 := by
  unfold clk_enable_gpll0
  simp [h]

theorem clk_enable_gpll0_inactive (d : Device σ) (fuel base : Nat) (w : World σ)
    (h : (readl d (base + GPLL0_STATUS) w).1 &&& GPLL0_STATUS_ACTIVE = 0) :
    clk_enable_gpll0 d fuel base w
      = spin d (base + GPLL0_STATUS) (fun v => v &&& GPLL0_STATUS_ACTIVE == 0) fuel
          (writel d ((readl d (base + APCS_GPLL_ENA_VOTE) (readl d (base + GPLL0_STATUS) w).2).1
              ||| APCS_GPLL_ENA_VOTE_GPLL0) (base + APCS_GPLL_ENA_VOTE)
            (readl d (base + APCS_GPLL_ENA_VOTE) (readl d (base + GPLL0_STATUS) w).2).2) := by
  unfold clk_enable_gpll0
  simp [h]

theorem clk_enable_gpll0_log (d : Device σ) (fuel base : Nat) (w : World σ)
    (h : (readl d (base + GPLL0_STATUS) w).1 &&& GPLL0_STATUS_ACTIVE = 0) :
    ∃ polls, (clk_enable_gpll0 d fuel base w).world.log
        = w.log ++ [Access.rd (base + GPLL0_STATUS) (readl d (base + GPLL0_STATUS) w).1,
            Access.rd (base + APCS_GPLL_ENA_VOTE)
              (readl d (base + APCS_GPLL_ENA_VOTE) (readl d (base + GPLL0_STATUS) w).2).1,
            Access.wr (base + APCS_GPLL_ENA_VOTE)
              ((readl d (base + APCS_GPLL_ENA_VOTE) (readl d (base + GPLL0_STATUS) w).2).1 ||| 1)]
          ++ polls ∧
      ∀ e ∈ polls, ∃ v, e = Access.rd (base + GPLL0_STATUS) v := by
  rw [clk_enable_gpll0_inactive d fuel base w h]
  obtain ⟨polls, h1, h2⟩ := spin_log d (base + GPLL0_STATUS)
    (fun v => v &&& GPLL0_STATUS_ACTIVE == 0) fuel
    (writel d ((readl d (base + APCS_GPLL_ENA_VOTE) (readl d (base + GPLL0_STATUS) w).2).1
        ||| APCS_GPLL_ENA_VOTE_GPLL0) (base + APCS_GPLL_ENA_VOTE)
      (readl d (base + APCS_GPLL_ENA_VOTE) (readl d (base + GPLL0_STATUS) w).2).2)
  refine ⟨polls, ?_, h2⟩
  have e : APCS_GPLL_ENA_VOTE_GPLL0 = 1 := by decide
  rw [h1, e, writel_log d _ _ _ (or_one_lt _ (readl_lt d _ _)), readl_log, readl_log]
  simp

theorem clk_enable_cbc_writes (d : Device σ) (fuel a : Nat) (w : World σ) :
    writesOf (clk_enable_cbc d fuel a w).world.log
      = writesOf w.log ++ [(a, (readl d a w).1 ||| 1)] := by
  obtain ⟨polls, h1, h2⟩ := clk_enable_cbc_log d fuel a w
  rw [h1, writesOf_append, writesOf_append, writesOf_reads a polls h2]
  simp [writesOf]

theorem clk_enable_gpll0_writes (d : Device σ) (fuel base : Nat) (w : World σ) :
    ∃ votes, writesOf (clk_enable_gpll0 d fuel base w).world.log = writesOf w.log ++ votes ∧
      (votes = [] ∨ ∃ e, votes = [(base + APCS_GPLL_ENA_VOTE, e ||| 1)]) := by
  by_cases h : (readl d (base + GPLL0_STATUS) w).1 &&& GPLL0_STATUS_ACTIVE = 0
  · obtain ⟨polls, h1, h2⟩ := clk_enable_gpll0_log d fuel base w h
    refine ⟨[(base + APCS_GPLL_ENA_VOTE,
      (readl d (base + APCS_GPLL_ENA_VOTE) (readl d (base + GPLL0_STATUS) w).2).1 ||| 1)], ?_,
      Or.inr ⟨_, rfl⟩⟩
    rw [h1, writesOf_append, writesOf_append, writesOf_reads _ polls h2]
    simp [writesOf]
  · refine ⟨[], ?_, Or.inl rfl⟩
    rw [clk_enable_gpll0_active d fuel base w h]
    simp [Run.world, readl_log, writesOf_append, writesOf]

theorem clk_rcg_set_rate_mnd_writes (d : Device σ) (fuel base : Nat) (regs : bcr_regs)
    (div m n source : Int) (w : World σ) :
    ∃ c x, c < 4294967296 ∧
      writesOf (clk_rcg_set_rate_mnd d fuel base regs div m n source w).world.log
        = writesOf w.log ++ [(base + regs.M, rcg_m_val m), (base + regs.N, rcg_n_val m n),
            (base + regs.D, rcg_d_val n),
            (base + regs.cfg_rcgr, rcg_cfg c div source (rcg_n_val m n)),
            (base + regs.cmd_rcgr, x ||| 1)] := by
  obtain ⟨c, x, polls, hc, _, h1, h2⟩ := clk_rcg_set_rate_mnd_log d fuel base regs div m n source w
  refine ⟨c, x, hc, ?_⟩
  rw [h1, writesOf_append, writesOf_append, writesOf_reads _ polls h2]
  simp [writesOf]

theorem init_seq_writes (d : Device σ) (fuel base a1 a2 : Nat) (regs : bcr_regs)
    (div m n src r : Int) (w : World σ)
    (h : ((clk_enable_cbc d fuel a1 w).bind fun _ w1 =>
          (clk_rcg_set_rate_mnd d fuel base regs div m n src w1).bind fun _ w2 =>
          (clk_enable_gpll0 d fuel base w2).bind fun _ w3 =>
          (clk_enable_cbc d fuel a2 w3).bind fun _ w4 => Run.ret r w4).returned = true) :
    ∃ a c x votes p, c < 4294967296 ∧
      ((clk_enable_cbc d fuel a1 w).bind fun _ w1 =>
          (clk_rcg_set_rate_mnd d fuel base regs div m n src w1).bind fun _ w2 =>
          (clk_enable_gpll0 d fuel base w2).bind fun _ w3 =>
          (clk_enable_cbc d fuel a2 w3).bind fun _ w4 => Run.ret r w4).value = some r ∧
      writesOf ((clk_enable_cbc d fuel a1 w).bind fun _ w1 =>
          (clk_rcg_set_rate_mnd d fuel base regs div m n src w1).bind fun _ w2 =>
          (clk_enable_gpll0 d fuel base w2).bind fun _ w3 =>
          (clk_enable_cbc d fuel a2 w3).bind fun _ w4 => Run.ret r w4).world.log
        = writesOf w.log ++ [(a1, a ||| 1), (base + regs.M, rcg_m_val m),
            (base + regs.N, rcg_n_val m n), (base + regs.D, rcg_d_val n),
            (base + regs.cfg_rcgr, rcg_cfg c div src (rcg_n_val m n)),
            (base + regs.cmd_rcgr, x ||| 1)] ++ votes ++ [(a2, p ||| 1)] ∧
      (votes = [] ∨ ∃ e, votes = [(base + APCS_GPLL_ENA_VOTE, e ||| 1)]) := by
  cases hr1 : clk_enable_cbc d fuel a1 w with
  | hang w1 => rw [hr1] at h; simp [Run.bind, Run.returned] at h
  | ret u1 w1 =>
    rw [hr1] at h
    simp only [Run.bind] at h ⊢
    have hw1 : writesOf w1.log = writesOf w.log ++ [(a1, (readl d a1 w).1 ||| 1)] := by
      have := clk_enable_cbc_writes d fuel a1 w
      rw [hr1] at this
      exact this
    cases hr2 : clk_rcg_set_rate_mnd d fuel base regs div m n src w1 with
    | hang w2 => rw [hr2] at h; simp [Run.returned] at h
    | ret u2 w2 =>
      rw [hr2] at h
      simp only at h ⊢
      obtain ⟨c, x, hc, hw2⟩ := clk_rcg_set_rate_mnd_writes d fuel base regs div m n src w1
      rw [hr2] at hw2
      cases hr3 : clk_enable_gpll0 d fuel base w2 with
      | hang w3 => rw [hr3] at h; simp [Run.returned] at h
      | ret u3 w3 =>
        rw [hr3] at h
        simp only at h ⊢
        obtain ⟨votes, hw3, hv⟩ := clk_enable_gpll0_writes d fuel base w2
        rw [hr3] at hw3
        cases hr4 : clk_enable_cbc d fuel a2 w3 with
        | hang w4 => rw [hr4] at h; simp [Run.returned] at h
        | ret u4 w4 =>
          have hw4 := clk_enable_cbc_writes d fuel a2 w3
          rw [hr4] at hw4
          refine ⟨(readl d a1 w).1, c, x, votes, (readl d a2 w3).1, hc, rfl, ?_, hv⟩
          simp only [Run.world] at hw2 hw3 hw4 ⊢
          rw [hw4, hw3, hw2, hw1]
          simp

/-! ### Values programmed by `clk_rcg_set_rate_mnd` -/

theorem rcg_m_val_nonneg (m : Int) (h0 : 0 ≤ m) (h1 : m < 2147483648) :
    rcg_m_val m = m.toNat := by
  unfold rcg_m_val u32; omega

theorem rcg_d_val_nonneg (n : Int) (h0 : 0 ≤ n) (h1 : n < 2147483648) :
    rcg_d_val n = 4294967295 ^^^ n.toNat := by
  rw [← compl32_eq_xor _ (by omega)]
  unfold rcg_d_val u32; omega

theorem rcg_n_val_fractional (m n : Int) (hm : 0 < m) (hmn : m ≤ n) (hn : n < 2147483648) :
    rcg_n_val m n = 4294967295 ^^^ (n - m).toNat ∧ rcg_n_val m n ≠ 0 := by
  have hne : n ≠ 0 := by omega
  have e : rcg_n_val m n = 4294967295 - (n - m).toNat := by
    unfold rcg_n_val u32
    rw [if_pos hne]
    omega
  constructor
  · rw [e, compl32_eq_xor _ (by omega)]
  · rw [e]; omega

theorem rcg_n_val_zero (m : Int) : rcg_n_val m 0 = 0 := by
  simp [rcg_n_val, u32]

theorem rcg_d_val_zero : rcg_d_val 0 = 4294967295 := by decide

theorem or_one_testBit (v i : Nat) (hi : i ≠ 0) : (v ||| 1).testBit i = v.testBit i := by
  have : Nat.testBit 1 i = false := by
    cases h : Nat.testBit 1 i
    · rfl
    · exact absurd (Nat.testBit_one_eq_true_iff_self_eq_zero.1 h) hi
  simp [Nat.testBit_or, this]

theorem clk_enable_gpll0_returned_state (d : Device σ) (fuel base : Nat) (w : World σ)
    (h : (clk_enable_gpll0 d fuel base w).returned = true) :
    ∃ s, (clk_enable_gpll0 d fuel base w).world.hw = (d.readl s (base + GPLL0_STATUS)).2 ∧
      (d.readl s (base + GPLL0_STATUS)).1 % 4294967296 &&& GPLL0_STATUS_ACTIVE ≠ 0 := by
  by_cases h0 : (readl d (base + GPLL0_STATUS) w).1 &&& GPLL0_STATUS_ACTIVE = 0
  · rw [clk_enable_gpll0_inactive d fuel base w h0] at h ⊢
    obtain ⟨_, s, _, h2, h3, _⟩ := spin_returned _ _ _ _ _ h
    exact ⟨s, h2, by simpa using h3⟩
  · rw [clk_enable_gpll0_active d fuel base w h0]
    exact ⟨w.hw, rfl, h0⟩

/-! ## The claims -/

/-- Claim C1: for `0 < m ≤ n` (with `n` an `int`), and for every divisor and source,
`clk_rcg_set_rate_mnd` writes `m` to the M register, the 32-bit complement of `n - m` to the N
register and the 32-bit complement of `n` to the D register, and the value it writes to the
config register has bit 13 (`0x2000`, dual-edge mode) set. -/
theorem clk_rcg_set_rate_mnd_fractional (d : Device σ) (fuel base : Nat) (regs : bcr_regs)
    (div m n source : Int) (w : World σ) (hm : 0 < m) (hmn : m ≤ n) (hn : n < 2147483648) :
    ∃ c x, writesOf (clk_rcg_set_rate_mnd d fuel base regs div m n source w).world.log
        = writesOf w.log ++ [(base + regs.M, m.toNat),
            (base + regs.N, 4294967295 ^^^ (n - m).toNat),
            (base + regs.D, 4294967295 ^^^ n.toNat),
            (base + regs.cfg_rcgr, c), (base + regs.cmd_rcgr, x)] ∧
      c &&& 8192 = 8192 := by
  obtain ⟨c, x, _, h⟩ := clk_rcg_set_rate_mnd_writes d fuel base regs div m n source w
  obtain ⟨e1, e2⟩ := rcg_n_val_fractional m n hm hmn hn
  refine ⟨rcg_cfg c div source (rcg_n_val m n), x ||| 1, ?_, rcg_cfg_mode_set c div source _ e2⟩
  rw [h, rcg_m_val_nonneg m (by omega) (by omega), rcg_d_val_nonneg n (by omega) hn, ← e1]

theorem clk_rcg_set_rate_mnd_fractional_witness :
    ∃ c x, writesOf (clk_rcg_set_rate_mnd simDevice 2 simClkBase uart2_regs 1 144 15625
          CFG_CLK_SRC_GPLL0 simWorld).world.log
        = writesOf simWorld.log ++ [(simClkBase + uart2_regs.M, (144 : Int).toNat),
            (simClkBase + uart2_regs.N, 4294967295 ^^^ ((15625 : Int) - 144).toNat),
            (simClkBase + uart2_regs.D, 4294967295 ^^^ (15625 : Int).toNat),
            (simClkBase + uart2_regs.cfg_rcgr, c), (simClkBase + uart2_regs.cmd_rcgr, x)] ∧
      c &&& 8192 = 8192 :=
  clk_rcg_set_rate_mnd_fractional simDevice 2 simClkBase uart2_regs 1 144 15625
    CFG_CLK_SRC_GPLL0 simWorld (by decide) (by decide) (by decide)

/-- Claim C2: called with `n = 0`, for every divisor (in particular every divisor `≥ 1`), every
`m` and every source, `clk_rcg_set_rate_mnd` writes 0 to the N register and `0xFFFFFFFF` to the D
register, and the value it writes to the config register has bit 13 clear, whatever the device
returned for the config register. -/
theorem clk_rcg_set_rate_mnd_integer (d : Device σ) (fuel base : Nat) (regs : bcr_regs)
    (div m source : Int) (w : World σ) :
    ∃ c x, writesOf (clk_rcg_set_rate_mnd d fuel base regs div m 0 source w).world.log
        = writesOf w.log ++ [(base + regs.M, rcg_m_val m), (base + regs.N, 0),
            (base + regs.D, 4294967295), (base + regs.cfg_rcgr, c), (base + regs.cmd_rcgr, x)] ∧
      c &&& 8192 = 0 := by
  obtain ⟨c, x, _, h⟩ := clk_rcg_set_rate_mnd_writes d fuel base regs div m 0 source w
  refine ⟨rcg_cfg c div source 0, x ||| 1, ?_, rcg_cfg_mode_clear c div source⟩
  rw [h, rcg_n_val_zero, rcg_d_val_zero]

/-- Claim C3, as stated, fails: with divisor 17 the value `2 * 17 - 1 = 33` does not fit the five
bits, the config word written is `0x101`, and its divider field is 1, which decodes to divisor 1. -/
theorem clk_rcg_set_rate_mnd_divider_17 :
    writesOf (clk_rcg_set_rate_mnd simDevice 2 simClkBase (sdc_regs 0) 17 0 0
          CFG_CLK_SRC_GPLL0 simWorld).world.log
        = [(simClkBase + (sdc_regs 0).M, 0), (simClkBase + (sdc_regs 0).N, 0),
            (simClkBase + (sdc_regs 0).D, 4294967295),
            (simClkBase + (sdc_regs 0).cfg_rcgr, 257), (simClkBase + (sdc_regs 0).cmd_rcgr, 1)] ∧
      257 &&& 31 ≠ 2 * 17 - 1 ∧ ((257 &&& 31) + 1) / 2 ≠ 17 := by
  decide

/-- Claim C3, amended: for every divisor with `1 ≤ divisor ≤ 16` the value written to the config
register has bits [4:0] equal to `2 * divisor - 1`, and `(field + 1) / 2` gives back the divisor. -/
theorem clk_rcg_set_rate_mnd_divider (d : Device σ) (fuel base : Nat) (regs : bcr_regs)
    (div m n source : Int) (w : World σ) (h1 : 1 ≤ div) (h16 : div ≤ 16) :
    ∃ c x, writesOf (clk_rcg_set_rate_mnd d fuel base regs div m n source w).world.log
        = writesOf w.log ++ [(base + regs.M, rcg_m_val m), (base + regs.N, rcg_n_val m n),
            (base + regs.D, rcg_d_val n), (base + regs.cfg_rcgr, c), (base + regs.cmd_rcgr, x)] ∧
      c &&& 31 = (2 * div - 1).toNat ∧ ((c &&& 31) + 1) / 2 = div.toNat := by
  obtain ⟨c, x, _, h⟩ := clk_rcg_set_rate_mnd_writes d fuel base regs div m n source w
  have e : rcg_cfg c div source (rcg_n_val m n) &&& 31 = (2 * div - 1).toNat := by
    rw [rcg_cfg_low]
    unfold u32; omega
  refine ⟨rcg_cfg c div source (rcg_n_val m n), x ||| 1, h, e, ?_⟩
  rw [e]; omega

theorem clk_rcg_set_rate_mnd_divider_witness :
    ∃ c x, writesOf (clk_rcg_set_rate_mnd simDevice 2 simClkBase (sdc_regs 0) 4 0 0
          CFG_CLK_SRC_GPLL0 simWorld).world.log
        = writesOf simWorld.log ++ [(simClkBase + (sdc_regs 0).M, rcg_m_val 0),
            (simClkBase + (sdc_regs 0).N, rcg_n_val 0 0),
            (simClkBase + (sdc_regs 0).D, rcg_d_val 0), (simClkBase + (sdc_regs 0).cfg_rcgr, c),
            (simClkBase + (sdc_regs 0).cmd_rcgr, x)] ∧
      c &&& 31 = (2 * (4 : Int) - 1).toNat ∧ ((c &&& 31) + 1) / 2 = (4 : Int).toNat :=
  clk_rcg_set_rate_mnd_divider simDevice 2 simClkBase (sdc_regs 0) 4 0 0 CFG_CLK_SRC_GPLL0
    simWorld (by decide) (by decide)

/-- Claim C4: for every value `c` read from the config register, every divisor, `m`, `n`, and
every source selector `s` whose set bits lie within bits [10:8], the value written to the config
register agrees with `c` on bits [31:14], has bits [10:8] equal to `s`, and has bits [7:5] and
[12:11] equal to 0. -/
theorem clk_rcg_set_rate_mnd_frame (d : Device σ) (fuel base : Nat) (regs : bcr_regs)
    (div m n : Int) (s : Nat) (w : World σ) (hs : s &&& 1792 = s) :
    ∃ c v x polls,
      (clk_rcg_set_rate_mnd d fuel base regs div m n (s : Int) w).world.log
        = w.log ++ [Access.wr (base + regs.M) (rcg_m_val m),
            Access.wr (base + regs.N) (rcg_n_val m n), Access.wr (base + regs.D) (rcg_d_val n),
            Access.rd (base + regs.cfg_rcgr) c, Access.wr (base + regs.cfg_rcgr) v,
            Access.rd (base + regs.cmd_rcgr) x, Access.wr (base + regs.cmd_rcgr) (x ||| 1)]
          ++ polls ∧
      v &&& 4294950912 = c &&& 4294950912 ∧ v &&& 1792 = s ∧ v &&& 6368 = 0 := by
  obtain ⟨c, x, polls, _, _, h, _⟩ := clk_rcg_set_rate_mnd_log d fuel base regs div m n (s : Int) w
  refine ⟨c, rcg_cfg c div (s : Int) (rcg_n_val m n), x, polls, h, rcg_cfg_frame _ _ _ _, ?_,
    rcg_cfg_unused _ _ _ _⟩
  have := rcg_cfg_src c div (s : Int) (rcg_n_val m n) (by omega) (by simpa using hs)
  simpa using this

theorem clk_rcg_set_rate_mnd_frame_witness :
    ∃ c v x polls,
      (clk_rcg_set_rate_mnd simDevice 2 simClkBase (sdc_regs 1) 8 0 0 ((256 : Nat) : Int)
          simWorld).world.log
        = simWorld.log ++ [Access.wr (simClkBase + (sdc_regs 1).M) (rcg_m_val 0),
            Access.wr (simClkBase + (sdc_regs 1).N) (rcg_n_val 0 0),
            Access.wr (simClkBase + (sdc_regs 1).D) (rcg_d_val 0),
            Access.rd (simClkBase + (sdc_regs 1).cfg_rcgr) c,
            Access.wr (simClkBase + (sdc_regs 1).cfg_rcgr) v,
            Access.rd (simClkBase + (sdc_regs 1).cmd_rcgr) x,
            Access.wr (simClkBase + (sdc_regs 1).cmd_rcgr) (x ||| 1)]
          ++ polls ∧
      v &&& 4294950912 = c &&& 4294950912 ∧ v &&& 1792 = 256 ∧ v &&& 6368 = 0 :=
  clk_rcg_set_rate_mnd_frame simDevice 2 simClkBase (sdc_regs 1) 8 0 0 256 simWorld (by decide)

/-- Claim C5: in a register model where the GPLL0 active bit (bit 17 of `GPLL0_STATUS`) stays
set once it has been read as set, take two consecutive calls of `clk_enable_gpll0` of which the
first returned.  The second call returns too and writes nothing.  The first call makes exactly
one write when its status read showed the bit clear, namely (vote value read OR bit 0) to
`APCS_GPLL_ENA_VOTE`, which leaves every other vote bit as it was, so that the two calls make
exactly one write in total; and any call whose status read shows the bit set makes no write. -/
theorem clk_enable_gpll0_twice (d : Device σ) (fuel base : Nat) (w : World σ)
    (sticky : ∀ s, (d.readl s (base + GPLL0_STATUS)).1 % 4294967296 &&& GPLL0_STATUS_ACTIVE ≠ 0 →
      (d.readl (d.readl s (base + GPLL0_STATUS)).2 (base + GPLL0_STATUS)).1 % 4294967296
        &&& GPLL0_STATUS_ACTIVE ≠ 0)
    (h1 : (clk_enable_gpll0 d fuel base w).returned = true) :
    (clk_enable_gpll0 d fuel base (clk_enable_gpll0 d fuel base w).world).returned = true ∧
    writesOf (clk_enable_gpll0 d fuel base (clk_enable_gpll0 d fuel base w).world).world.log
      = writesOf (clk_enable_gpll0 d fuel base w).world.log ∧
    ((readl d (base + GPLL0_STATUS) w).1 &&& GPLL0_STATUS_ACTIVE = 0 →
      writesOf (clk_enable_gpll0 d fuel base w).world.log
        = writesOf w.log ++ [(base + APCS_GPLL_ENA_VOTE,
            (readl d (base + APCS_GPLL_ENA_VOTE) (readl d (base + GPLL0_STATUS) w).2).1 ||| 1)] ∧
      ∀ i, i ≠ 0 →
        ((readl d (base + APCS_GPLL_ENA_VOTE) (readl d (base + GPLL0_STATUS) w).2).1 ||| 1).testBit i
          = (readl d (base + APCS_GPLL_ENA_VOTE) (readl d (base + GPLL0_STATUS) w).2).1.testBit i) ∧
    (∀ w0 : World σ, (readl d (base + GPLL0_STATUS) w0).1 &&& GPLL0_STATUS_ACTIVE ≠ 0 →
      (clk_enable_gpll0 d fuel base w0).returned = true ∧
      writesOf (clk_enable_gpll0 d fuel base w0).world.log = writesOf w0.log) := by
  have hact : ∀ w0 : World σ, (readl d (base + GPLL0_STATUS) w0).1 &&& GPLL0_STATUS_ACTIVE ≠ 0 →
      (clk_enable_gpll0 d fuel base w0).returned = true ∧
      writesOf (clk_enable_gpll0 d fuel base w0).world.log = writesOf w0.log := by
    intro w0 h
    rw [clk_enable_gpll0_active d fuel base w0 h]
    exact ⟨rfl, by simp [Run.world, readl_log, writesOf_append, writesOf]⟩
  obtain ⟨s, hs1, hs2⟩ := clk_enable_gpll0_returned_state d fuel base w h1
  have h2 : (readl d (base + GPLL0_STATUS) (clk_enable_gpll0 d fuel base w).world).1
      &&& GPLL0_STATUS_ACTIVE ≠ 0 := by
    have := sticky s hs2
    rw [← hs1] at this
    exact this
  refine ⟨(hact _ h2).1, (hact _ h2).2, ?_, hact⟩
  intro h0
  obtain ⟨polls, e1, e2⟩ := clk_enable_gpll0_log d fuel base w h0
  refine ⟨?_, fun i hi => or_one_testBit _ i hi⟩
  rw [e1, writesOf_append, writesOf_append, writesOf_reads _ polls e2]
  simp [writesOf]

theorem clk_enable_gpll0_twice_witness :
    (clk_enable_gpll0 simDevice 2 simClkBase
        (clk_enable_gpll0 simDevice 2 simClkBase simWorld).world).returned = true ∧
    writesOf (clk_enable_gpll0 simDevice 2 simClkBase
        (clk_enable_gpll0 simDevice 2 simClkBase simWorld).world).world.log
      = writesOf (clk_enable_gpll0 simDevice 2 simClkBase simWorld).world.log ∧
    writesOf (clk_enable_gpll0 simDevice 2 simClkBase simWorld).world.log
      = writesOf simWorld.log ++ [(simClkBase + APCS_GPLL_ENA_VOTE,
          (readl simDevice (simClkBase + APCS_GPLL_ENA_VOTE)
            (readl simDevice (simClkBase + GPLL0_STATUS) simWorld).2).1 ||| 1)] :=
  have h := clk_enable_gpll0_twice simDevice 2 simClkBase simWorld (fun _ h => h) (by decide)
  ⟨h.1, h.2.1, (h.2.2.1 (by decide)).1⟩

/-- Claim C6: for each of the two slots and every requested rate, a run of `clk_init_sdc` that
returned has programmed the root generator of `sdc_regs[slot]` with M = 0, N = 0,
D = `0xFFFFFFFF` (integer mode: `m = 0`, `n = 0`, bit 13 of the config word clear), with source
GPLL0 in bits [10:8], and with divider field [4:0] equal to 7 (divisor 4) when the rate is
200000000 and to 15 (divisor 8) for every other rate. -/
theorem clk_init_sdc_divider (d : Device σ) (fuel base : Nat) (slot : Fin 2) (rate : Nat)
    (w : World σ) (h : (clk_init_sdc d fuel base slot rate w).returned = true) :
    ∃ a c x votes p, writesOf (clk_init_sdc d fuel base slot rate w).world.log
        = writesOf w.log ++ [(base + SDCC_AHB_CBCR slot.val, a ||| 1),
            (base + (sdc_regs slot).M, 0), (base + (sdc_regs slot).N, 0),
            (base + (sdc_regs slot).D, 4294967295), (base + (sdc_regs slot).cfg_rcgr, c),
            (base + (sdc_regs slot).cmd_rcgr, x ||| 1)] ++ votes
          ++ [(base + SDCC_APPS_CBCR slot.val, p ||| 1)] ∧
      c &&& 31 = (if rate = 200000000 then 7 else 15) ∧ c &&& 8192 = 0 ∧
      c &&& 1792 = CFG_CLK_SRC_GPLL0.toNat := by
  obtain ⟨a, c, x, votes, p, _, _, hw, _⟩ := init_seq_writes d fuel base
    (base + SDCC_AHB_CBCR slot.val) (base + SDCC_APPS_CBCR slot.val) (sdc_regs slot)
    (if rate = 200000000 then 4 else 8) 0 0 CFG_CLK_SRC_GPLL0 (int_of_uint rate) w h
  rw [rcg_n_val_zero, rcg_d_val_zero, show rcg_m_val 0 = 0 from by decide] at hw
  refine ⟨a, _, x, votes, p, hw, ?_, rcg_cfg_mode_clear _ _ _,
    rcg_cfg_src _ _ _ _ (by decide) (by decide)⟩
  rw [rcg_cfg_low]
  split <;> decide

theorem clk_init_sdc_divider_witness :
    ∃ a c x votes p, writesOf (clk_init_sdc simDevice 2 simClkBase 0 200000000 simWorld).world.log
        = writesOf simWorld.log ++ [(simClkBase + SDCC_AHB_CBCR (0 : Fin 2).val, a ||| 1),
            (simClkBase + (sdc_regs 0).M, 0), (simClkBase + (sdc_regs 0).N, 0),
            (simClkBase + (sdc_regs 0).D, 4294967295), (simClkBase + (sdc_regs 0).cfg_rcgr, c),
            (simClkBase + (sdc_regs 0).cmd_rcgr, x ||| 1)] ++ votes
          ++ [(simClkBase + SDCC_APPS_CBCR (0 : Fin 2).val, p ||| 1)] ∧
      c &&& 31 = (if 200000000 = 200000000 then 7 else 15) ∧ c &&& 8192 = 0 ∧
      c &&& 1792 = CFG_CLK_SRC_GPLL0.toNat :=
  clk_init_sdc_divider simDevice 2 simClkBase 0 200000000 simWorld (by decide)

/-- Claim C7: in the writes of a run of `clk_init_sdc` that returned, the write that sets the
enable bit of the slot's AHB branch register comes first, before the writes to the generator's
M, N, D, config and command registers, and the write that sets the enable bit of the slot's apps
branch register comes last, after the config write and the update-request write (between them
there is at most the GPLL0 vote).  A run of `clk_init_uart` that returned has the same order,
with `BLSP1_AHB_CBCR` first and `BLSP1_UART2_APPS_CBCR` last. -/
theorem clk_init_branch_order (d : Device σ) (fuel base : Nat) (slot : Fin 2) (rate : Nat)
    (w wu : World σ) (hs : (clk_init_sdc d fuel base slot rate w).returned = true)
    (hu : (clk_init_uart d fuel base wu).returned = true) :
    (∃ a m n dv c x votes p, writesOf (clk_init_sdc d fuel base slot rate w).world.log
        = writesOf w.log ++ [(base + SDCC_AHB_CBCR slot.val, a ||| 1),
            (base + (sdc_regs slot).M, m), (base + (sdc_regs slot).N, n),
            (base + (sdc_regs slot).D, dv), (base + (sdc_regs slot).cfg_rcgr, c),
            (base + (sdc_regs slot).cmd_rcgr, x ||| 1)] ++ votes
          ++ [(base + SDCC_APPS_CBCR slot.val, p ||| 1)] ∧
      (votes = [] ∨ ∃ e, votes = [(base + APCS_GPLL_ENA_VOTE, e ||| 1)])) ∧
    (∃ a m n dv c x votes p, writesOf (clk_init_uart d fuel base wu).world.log
        = writesOf wu.log ++ [(base + BLSP1_AHB_CBCR, a ||| 1),
            (base + uart2_regs.M, m), (base + uart2_regs.N, n),
            (base + uart2_regs.D, dv), (base + uart2_regs.cfg_rcgr, c),
            (base + uart2_regs.cmd_rcgr, x ||| 1)] ++ votes
          ++ [(base + BLSP1_UART2_APPS_CBCR, p ||| 1)] ∧
      (votes = [] ∨ ∃ e, votes = [(base + APCS_GPLL_ENA_VOTE, e ||| 1)])) := by
  constructor
  · obtain ⟨a, c, x, votes, p, _, _, hw, hv⟩ := init_seq_writes d fuel base
      (base + SDCC_AHB_CBCR slot.val) (base + SDCC_APPS_CBCR slot.val) (sdc_regs slot)
      (if rate = 200000000 then 4 else 8) 0 0 CFG_CLK_SRC_GPLL0 (int_of_uint rate) w hs
    exact ⟨a, _, _, _, _, x, votes, p, hw, hv⟩
  · obtain ⟨a, c, x, votes, p, _, _, hw, hv⟩ := init_seq_writes d fuel base
      (base + BLSP1_AHB_CBCR) (base + BLSP1_UART2_APPS_CBCR) uart2_regs
      1 144 15625 CFG_CLK_SRC_GPLL0 0 wu hu
    exact ⟨a, _, _, _, _, x, votes, p, hw, hv⟩

theorem clk_init_branch_order_witness :
    (∃ a m n dv c x votes p, writesOf (clk_init_sdc simDevice 2 simClkBase 1 400000
          simWorld).world.log
        = writesOf simWorld.log ++ [(simClkBase + SDCC_AHB_CBCR (1 : Fin 2).val, a ||| 1),
            (simClkBase + (sdc_regs 1).M, m), (simClkBase + (sdc_regs 1).N, n),
            (simClkBase + (sdc_regs 1).D, dv), (simClkBase + (sdc_regs 1).cfg_rcgr, c),
            (simClkBase + (sdc_regs 1).cmd_rcgr, x ||| 1)] ++ votes
          ++ [(simClkBase + SDCC_APPS_CBCR (1 : Fin 2).val, p ||| 1)] ∧
      (votes = [] ∨ ∃ e, votes = [(simClkBase + APCS_GPLL_ENA_VOTE, e ||| 1)])) ∧
    (∃ a m n dv c x votes p, writesOf (clk_init_uart simDevice 2 simClkBase simWorld).world.log
        = writesOf simWorld.log ++ [(simClkBase + BLSP1_AHB_CBCR, a ||| 1),
            (simClkBase + uart2_regs.M, m), (simClkBase + uart2_regs.N, n),
            (simClkBase + uart2_regs.D, dv), (simClkBase + uart2_regs.cfg_rcgr, c),
            (simClkBase + uart2_regs.cmd_rcgr, x ||| 1)] ++ votes
          ++ [(simClkBase + BLSP1_UART2_APPS_CBCR, p ||| 1)] ∧
      (votes = [] ∨ ∃ e, votes = [(simClkBase + APCS_GPLL_ENA_VOTE, e ||| 1)])) :=
  clk_init_branch_order simDevice 2 simClkBase 1 400000 simWorld simWorld (by decide) (by decide)


theorem msm_sdc_clk_init_ret (clk : Option (Int → Nat → World σ → Run σ Nat))
    (clkd1 clk_rate : Nat) (w : World σ)
    (h : (msm_sdc_clk_init clk clkd1 clk_rate w).returned = true) :
    msm_sdc_clk_init clk clkd1 clk_rate w
      = Run.ret 0 (msm_sdc_clk_init clk clkd1 clk_rate w).world := by
  cases clk with
  | none => rfl
  | some op =>
    unfold msm_sdc_clk_init at h ⊢
    simp only at h ⊢
    cases hop : op (int_of_uint clkd1) clk_rate w with
    | ret v w1 => rfl
    | hang w1 => rw [hop] at h; simp [Run.bind, Run.returned] at h

theorem or_128_lt (x : Nat) (hx : x < 4294967296) : x ||| 128 < 4294967296 := by
  have p : (4294967296 : Nat) = 2 ^ 32 := by norm_num
  rw [p] at hx ⊢
  exact Nat.or_lt_two_pow hx (by norm_num)

theorem core_major_eq (v : Nat) (hv : v < 4294967296) :
    (v &&& SDCC_MCI_VERSION_MAJOR_MASK) >>> SDCC_MCI_VERSION_MAJOR_SHIFT = v / 268435456 := by
  have e1 : SDCC_MCI_VERSION_MAJOR_MASK = 15 <<< 28 := by decide
  have e2 : SDCC_MCI_VERSION_MAJOR_SHIFT = 28 := rfl
  have e3 : v / 268435456 = v >>> 28 := by rw [Nat.shiftRight_eq_div_pow]
  rw [e1, e2, e3]
  apply Nat.eq_of_testBit_eq
  intro i
  rw [Nat.testBit_shiftRight, Nat.testBit_shiftRight, Nat.testBit_and, Nat.testBit_shiftLeft]
  by_cases hi : i < 4
  · have : Nat.testBit 15 i = true := by interval_cases i <;> decide
    simp [this]
  · have p : (4294967296 : Nat) = 2 ^ 32 := by norm_num
    have : v.testBit (28 + i) = false :=
      Nat.testBit_lt_two_pow (lt_of_lt_of_le (p ▸ hv)
        (Nat.pow_le_pow_right (by norm_num) (by omega)))
    simp [this]

theorem core_minor_eq (v : Nat) : v &&& SDCC_MCI_VERSION_MINOR_MASK = v % 256 :=
  Nat.and_pow_two_sub_one_eq_mod v 8

theorem msm_sdc_probe_cases (d : Device σ) (H : SdhciHeader)
    (clk : Option (Int → Nat → World σ → Run σ Nat)) (clkd1 clk_rate : Nat)
    (add_sdhci : sdhci_host → World σ → Run σ Int) (base ioaddr : Nat) (w w0 : World σ)
    (hinit : msm_sdc_clk_init clk clkd1 clk_rate w = Run.ret 0 w0) :
    ∃ p q,
      (q &&& 128 ≠ 0 ∧ ∃ w5,
        msm_sdc_probe d H clk clkd1 clk_rate add_sdhci base ioaddr w = Run.ret (-1) w5 ∧
        w5.log = w0.log ++
            [Access.rd (base + SDCC_MCI_POWER) p, Access.wr (base + SDCC_MCI_POWER) (p ||| 128),
              Access.delay 2, Access.rd (base + SDCC_MCI_POWER) q, Access.print]) ∨
      (q &&& 128 = 0 ∧ ∃ v hv w4, v < 4294967296 ∧
        msm_sdc_probe d H clk clkd1 clk_rate add_sdhci base ioaddr w
          = add_sdhci (sdhci_host.mk
            (H.SDHCI_QUIRK_WAIT_SEND_CMD ||| H.SDHCI_QUIRK_BROKEN_R1B) hv ioaddr) w4 ∧
        ((((v &&& SDCC_MCI_VERSION_MAJOR_MASK) >>> SDCC_MCI_VERSION_MAJOR_SHIFT ≥ 1 ∧
            v &&& SDCC_MCI_VERSION_MINOR_MASK ≠ 0x11 ∧
            v &&& SDCC_MCI_VERSION_MINOR_MASK ≠ 0x12) ∧ ∃ c,
          w4.log = w0.log ++
            [Access.rd (base + SDCC_MCI_POWER) p, Access.wr (base + SDCC_MCI_POWER) (p ||| 128),
              Access.delay 2, Access.rd (base + SDCC_MCI_POWER) q,
              Access.wr (base + SDCC_MCI_HC_MODE) 1, Access.rd (base + SDCC_MCI_VERSION) v,
              Access.rd (ioaddr + H.SDHCI_CAPABILITIES) c,
              Access.wr (ioaddr + SDHCI_VENDOR_SPEC_CAPABILITIES0)
                ((c ||| (H.SDHCI_CAN_VDD_300 ||| H.SDHCI_CAN_DO_8BIT)) % 4294967296),
              Access.rdw (ioaddr + H.SDHCI_HOST_VERSION) hv]) ∨
         (¬ ((v &&& SDCC_MCI_VERSION_MAJOR_MASK) >>> SDCC_MCI_VERSION_MAJOR_SHIFT ≥ 1 ∧
            v &&& SDCC_MCI_VERSION_MINOR_MASK ≠ 0x11 ∧
            v &&& SDCC_MCI_VERSION_MINOR_MASK ≠ 0x12) ∧
          w4.log = w0.log ++
            [Access.rd (base + SDCC_MCI_POWER) p, Access.wr (base + SDCC_MCI_POWER) (p ||| 128),
              Access.delay 2, Access.rd (base + SDCC_MCI_POWER) q,
              Access.wr (base + SDCC_MCI_HC_MODE) 1, Access.rd (base + SDCC_MCI_VERSION) v,
              Access.rdw (ioaddr + H.SDHCI_HOST_VERSION) hv]))) := by
  have e : SDCC_MCI_POWER_SW_RST = 128 := by decide
  unfold msm_sdc_probe
  rw [hinit]
  simp only [Run.bind, e, ne_eq, not_true_eq_false, if_false]
  have hp := readl_log d (base + SDCC_MCI_POWER) w0
  have hpl := readl_lt d (base + SDCC_MCI_POWER) w0
  generalize readl d (base + SDCC_MCI_POWER) w0 = P at hp hpl ⊢
  have hw1 := writel_log d (P.1 ||| 128) (base + SDCC_MCI_POWER) P.2 (or_128_lt _ hpl)
  generalize writel d (P.1 ||| 128) (base + SDCC_MCI_POWER) P.2 = w1 at hw1 ⊢
  have hw2 : (mdelay d 2 w1).log = w1.log ++ [Access.delay 2] := rfl
  generalize mdelay d 2 w1 = w2 at hw2 ⊢
  have hq := readl_log d (base + SDCC_MCI_POWER) w2
  generalize readl d (base + SDCC_MCI_POWER) w2 = Q at hq ⊢
  refine ⟨P.1, Q.1, ?_⟩
  by_cases h7 : Q.1 &&& 128 = 0
  · right
    refine ⟨h7, ?_⟩
    simp only [h7, not_true_eq_false, if_false]
    have hw3 := writel_log d 1 (base + SDCC_MCI_HC_MODE) Q.2 (by norm_num)
    generalize writel d 1 (base + SDCC_MCI_HC_MODE) Q.2 = w3 at hw3 ⊢
    have hv := readl_log d (base + SDCC_MCI_VERSION) w3
    have hvl := readl_lt d (base + SDCC_MCI_VERSION) w3
    generalize readl d (base + SDCC_MCI_VERSION) w3 = V at hv hvl ⊢
    by_cases hc : ((V.1 &&& SDCC_MCI_VERSION_MAJOR_MASK) >>> SDCC_MCI_VERSION_MAJOR_SHIFT ≥ 1 ∧
        V.1 &&& SDCC_MCI_VERSION_MINOR_MASK ≠ 0x11 ∧ V.1 &&& SDCC_MCI_VERSION_MINOR_MASK ≠ 0x12)
    · rw [if_pos hc]
      refine ⟨V.1, _, _, hvl, rfl, Or.inl ⟨hc, (readl d (ioaddr + H.SDHCI_CAPABILITIES) V.2).1, ?_⟩⟩
      simp [readw, writel, readl, hv, hw3, hq, hw2, hw1, hp]
    · rw [if_neg hc]
      refine ⟨V.1, _, _, hvl, rfl, Or.inr ⟨hc, ?_⟩⟩
      simp [readw, hv, hw3, hq, hw2, hw1, hp]
  · left
    refine ⟨h7, ?_⟩
    simp only [h7, not_false_eq_true, if_true]
    exact ⟨_, rfl, by simp [printf, hq, hw2, hw1, hp]⟩


/-- Claim C8: once the clock initialisation has returned, `msm_sdc_probe` reads the MCI power
register (value `p`), writes `p` OR bit 7 back to it, waits 2 ms and reads it again (value `q`).
If bit 7 of `q` is set, probe returns -1 after the console message, and the power write is the
only register write it has made: no write to the host-controller-mode register (offset `0x78`)
and no later access.  If bit 7 of `q` is clear, the next access is the write of 1 to the
host-controller-mode register, and probe goes on to end in `add_sdhci`. -/
theorem msm_sdc_probe_reset (d : Device σ) (H : SdhciHeader)
    (clk : Option (Int → Nat → World σ → Run σ Nat)) (clkd1 clk_rate : Nat)
    (add_sdhci : sdhci_host → World σ → Run σ Int) (base ioaddr : Nat) (w : World σ)
    (h : (msm_sdc_clk_init clk clkd1 clk_rate w).returned = true) :
    ∃ p q,
      (q &&& 128 ≠ 0 ∧
        (msm_sdc_probe d H clk clkd1 clk_rate add_sdhci base ioaddr w).value
          = some (-1) ∧
        (msm_sdc_probe d H clk clkd1 clk_rate add_sdhci base ioaddr w).world.log
          = (msm_sdc_clk_init clk clkd1 clk_rate w).world.log ++
            [Access.rd (base + SDCC_MCI_POWER) p,
              Access.wr (base + SDCC_MCI_POWER) (p ||| 128), Access.delay 2,
              Access.rd (base + SDCC_MCI_POWER) q, Access.print]) ∨
      (q &&& 128 = 0 ∧ ∃ host w4 rest,
        msm_sdc_probe d H clk clkd1 clk_rate add_sdhci base ioaddr w
          = add_sdhci host w4 ∧
        w4.log = (msm_sdc_clk_init clk clkd1 clk_rate w).world.log ++
            [Access.rd (base + SDCC_MCI_POWER) p,
              Access.wr (base + SDCC_MCI_POWER) (p ||| 128), Access.delay 2,
              Access.rd (base + SDCC_MCI_POWER) q,
              Access.wr (base + SDCC_MCI_HC_MODE) 1] ++ rest) := by
  have hinit := msm_sdc_clk_init_ret clk clkd1 clk_rate w h
  obtain ⟨p, q, hc⟩ := msm_sdc_probe_cases d H clk clkd1 clk_rate add_sdhci base ioaddr w _ hinit
  refine ⟨p, q, ?_⟩
  rcases hc with ⟨h7, w5, e1, e2⟩ | ⟨h7, v, hv, w4, _, e1, hl⟩
  · left
    rw [e1]
    exact ⟨h7, rfl, e2⟩
  · right
    rcases hl with ⟨_, c, e2⟩ | ⟨_, e2⟩
    · exact ⟨h7, _, w4, [Access.rd (base + SDCC_MCI_VERSION) v,
        Access.rd (ioaddr + H.SDHCI_CAPABILITIES) c,
        Access.wr (ioaddr + SDHCI_VENDOR_SPEC_CAPABILITIES0)
          ((c ||| (H.SDHCI_CAN_VDD_300 ||| H.SDHCI_CAN_DO_8BIT)) % 4294967296),
        Access.rdw (ioaddr + H.SDHCI_HOST_VERSION) hv], e1, by rw [e2]; simp⟩
    · exact ⟨h7, _, w4, [Access.rd (base + SDCC_MCI_VERSION) v,
        Access.rdw (ioaddr + H.SDHCI_HOST_VERSION) hv], e1, by rw [e2]; simp⟩

theorem msm_sdc_probe_reset_witness :
    ∃ p q,
      (q &&& 128 ≠ 0 ∧
        (msm_sdc_probe simDevice simHeader (some (msm_set_periph_rate simDevice 2 simClkBase 64)) 0 400000 simAddSdhci simMmcBase simMmcIoaddr simWorld).value
          = some (-1) ∧
        (msm_sdc_probe simDevice simHeader (some (msm_set_periph_rate simDevice 2 simClkBase 64)) 0 400000 simAddSdhci simMmcBase simMmcIoaddr simWorld).world.log
          = (msm_sdc_clk_init (some (msm_set_periph_rate simDevice 2 simClkBase 64)) 0 400000 simWorld).world.log ++
            [Access.rd (simMmcBase + SDCC_MCI_POWER) p,
              Access.wr (simMmcBase + SDCC_MCI_POWER) (p ||| 128), Access.delay 2,
              Access.rd (simMmcBase + SDCC_MCI_POWER) q, Access.print]) ∨
      (q &&& 128 = 0 ∧ ∃ host w4 rest,
        msm_sdc_probe simDevice simHeader (some (msm_set_periph_rate simDevice 2 simClkBase 64)) 0 400000 simAddSdhci simMmcBase simMmcIoaddr simWorld
          = simAddSdhci host w4 ∧
        w4.log = (msm_sdc_clk_init (some (msm_set_periph_rate simDevice 2 simClkBase 64)) 0 400000 simWorld).world.log ++
            [Access.rd (simMmcBase + SDCC_MCI_POWER) p,
              Access.wr (simMmcBase + SDCC_MCI_POWER) (p ||| 128), Access.delay 2,
              Access.rd (simMmcBase + SDCC_MCI_POWER) q,
              Access.wr (simMmcBase + SDCC_MCI_HC_MODE) 1] ++ rest) :=
  msm_sdc_probe_reset simDevice simHeader
    (some (msm_set_periph_rate simDevice 2 simClkBase 64)) 0 400000 simAddSdhci simMmcBase
    simMmcIoaddr simWorld (by decide)

/-- Claim C9: let `v` be the 32-bit value that `msm_sdc_probe` reads from the MCI version
register (it does so when the reset read-back `q` has bit 7 clear), `major = v / 2^28` its bits
[31:28] and `minor = v % 256` its bits [7:0].  If `major ≥ 1` and `minor` is neither `0x11` nor
`0x12`, probe reads `SDHCI_CAPABILITIES` (value `c`) and writes
`c | SDHCI_CAN_VDD_300 | SDHCI_CAN_DO_8BIT` to the vendor capabilities register at offset
`0x11c`; otherwise it goes from the version read straight to the read of the host version, and
no capabilities register is written.  When the controller is stuck in reset the only write is
the one to the power register. -/
theorem msm_sdc_probe_caps_quirk (d : Device σ) (H : SdhciHeader)
    (clk : Option (Int → Nat → World σ → Run σ Nat)) (clkd1 clk_rate : Nat)
    (add_sdhci : sdhci_host → World σ → Run σ Int) (base ioaddr : Nat) (w : World σ)
    (h : (msm_sdc_clk_init clk clkd1 clk_rate w).returned = true) :
    ∃ p q,
      (q &&& 128 ≠ 0 ∧
        (msm_sdc_probe d H clk clkd1 clk_rate add_sdhci base ioaddr w).value
          = some (-1) ∧
        writesOf (msm_sdc_probe d H clk clkd1 clk_rate add_sdhci base ioaddr
            w).world.log
          = writesOf (msm_sdc_clk_init clk clkd1 clk_rate w).world.log ++
            [(base + SDCC_MCI_POWER, p ||| 128)]) ∨
      (q &&& 128 = 0 ∧ ∃ v hv w4, v < 4294967296 ∧
        msm_sdc_probe d H clk clkd1 clk_rate add_sdhci base ioaddr w
          = add_sdhci (sdhci_host.mk
            (H.SDHCI_QUIRK_WAIT_SEND_CMD ||| H.SDHCI_QUIRK_BROKEN_R1B) hv ioaddr) w4 ∧
        (((v / 268435456 ≥ 1 ∧ v % 256 ≠ 0x11 ∧ v % 256 ≠ 0x12) ∧ ∃ c,
          w4.log = (msm_sdc_clk_init clk clkd1 clk_rate w).world.log ++
            [Access.rd (base + SDCC_MCI_POWER) p,
              Access.wr (base + SDCC_MCI_POWER) (p ||| 128), Access.delay 2,
              Access.rd (base + SDCC_MCI_POWER) q,
              Access.wr (base + SDCC_MCI_HC_MODE) 1,
              Access.rd (base + SDCC_MCI_VERSION) v,
              Access.rd (ioaddr + H.SDHCI_CAPABILITIES) c,
              Access.wr (ioaddr + SDHCI_VENDOR_SPEC_CAPABILITIES0)
                ((c ||| (H.SDHCI_CAN_VDD_300 ||| H.SDHCI_CAN_DO_8BIT)) % 4294967296),
              Access.rdw (ioaddr + H.SDHCI_HOST_VERSION) hv]) ∨
         (¬ (v / 268435456 ≥ 1 ∧ v % 256 ≠ 0x11 ∧ v % 256 ≠ 0x12) ∧
          w4.log = (msm_sdc_clk_init clk clkd1 clk_rate w).world.log ++
            [Access.rd (base + SDCC_MCI_POWER) p,
              Access.wr (base + SDCC_MCI_POWER) (p ||| 128), Access.delay 2,
              Access.rd (base + SDCC_MCI_POWER) q,
              Access.wr (base + SDCC_MCI_HC_MODE) 1,
              Access.rd (base + SDCC_MCI_VERSION) v,
              Access.rdw (ioaddr + H.SDHCI_HOST_VERSION) hv]))) := by
  have hinit := msm_sdc_clk_init_ret clk clkd1 clk_rate w h
  obtain ⟨p, q, hc⟩ := msm_sdc_probe_cases d H clk clkd1 clk_rate add_sdhci base ioaddr w _ hinit
  refine ⟨p, q, ?_⟩
  rcases hc with ⟨h7, w5, e1, e2⟩ | ⟨h7, v, hv, w4, hlt, e1, hl⟩
  · left
    rw [e1]
    refine ⟨h7, rfl, ?_⟩
    show writesOf w5.log = _
    rw [e2]
    simp [writesOf_append, writesOf]
  · right
    rw [core_major_eq v hlt, core_minor_eq v] at hl
    exact ⟨h7, v, hv, w4, hlt, e1, hl⟩

theorem msm_sdc_probe_caps_quirk_witness :
    ∃ p q,
      (q &&& 128 ≠ 0 ∧
        (msm_sdc_probe simDevice simHeader (some (msm_set_periph_rate simDevice 2 simClkBase 64)) 1 200000000 simAddSdhci simMmcBase simMmcIoaddr simWorld).value
          = some (-1) ∧
        writesOf (msm_sdc_probe simDevice simHeader (some (msm_set_periph_rate simDevice 2 simClkBase 64)) 1 200000000 simAddSdhci simMmcBase simMmcIoaddr
            simWorld).world.log
          = writesOf (msm_sdc_clk_init (some (msm_set_periph_rate simDevice 2 simClkBase 64)) 1 200000000 simWorld).world.log ++
            [(simMmcBase + SDCC_MCI_POWER, p ||| 128)]) ∨
      (q &&& 128 = 0 ∧ ∃ v hv w4, v < 4294967296 ∧
        msm_sdc_probe simDevice simHeader (some (msm_set_periph_rate simDevice 2 simClkBase 64)) 1 200000000 simAddSdhci simMmcBase simMmcIoaddr simWorld
          = simAddSdhci (sdhci_host.mk
            (simHeader.SDHCI_QUIRK_WAIT_SEND_CMD ||| simHeader.SDHCI_QUIRK_BROKEN_R1B) hv simMmcIoaddr) w4 ∧
        (((v / 268435456 ≥ 1 ∧ v % 256 ≠ 0x11 ∧ v % 256 ≠ 0x12) ∧ ∃ c,
          w4.log = (msm_sdc_clk_init (some (msm_set_periph_rate simDevice 2 simClkBase 64)) 1 200000000 simWorld).world.log ++
            [Access.rd (simMmcBase + SDCC_MCI_POWER) p,
              Access.wr (simMmcBase + SDCC_MCI_POWER) (p ||| 128), Access.delay 2,
              Access.rd (simMmcBase + SDCC_MCI_POWER) q,
              Access.wr (simMmcBase + SDCC_MCI_HC_MODE) 1,
              Access.rd (simMmcBase + SDCC_MCI_VERSION) v,
              Access.rd (simMmcIoaddr + simHeader.SDHCI_CAPABILITIES) c,
              Access.wr (simMmcIoaddr + SDHCI_VENDOR_SPEC_CAPABILITIES0)
                ((c ||| (simHeader.SDHCI_CAN_VDD_300 ||| simHeader.SDHCI_CAN_DO_8BIT)) % 4294967296),
              Access.rdw (simMmcIoaddr + simHeader.SDHCI_HOST_VERSION) hv]) ∨
         (¬ (v / 268435456 ≥ 1 ∧ v % 256 ≠ 0x11 ∧ v % 256 ≠ 0x12) ∧
          w4.log = (msm_sdc_clk_init (some (msm_set_periph_rate simDevice 2 simClkBase 64)) 1 200000000 simWorld).world.log ++
            [Access.rd (simMmcBase + SDCC_MCI_POWER) p,
              Access.wr (simMmcBase + SDCC_MCI_POWER) (p ||| 128), Access.delay 2,
              Access.rd (simMmcBase + SDCC_MCI_POWER) q,
              Access.wr (simMmcBase + SDCC_MCI_HC_MODE) 1,
              Access.rd (simMmcBase + SDCC_MCI_VERSION) v,
              Access.rdw (simMmcIoaddr + simHeader.SDHCI_HOST_VERSION) hv]))) :=
  msm_sdc_probe_caps_quirk simDevice simHeader
    (some (msm_set_periph_rate simDevice 2 simClkBase 64)) 1 200000000 simAddSdhci simMmcBase
    simMmcIoaddr simWorld (by decide)

/-- Claim C19: `msm_sdc_clk_init` returns 0 and nothing else: at once and without any access
when no clock device was found, and as soon as the `set_periph_rate` operation has returned
otherwise, whatever that operation returned.  Hence `msm_sdc_probe` never takes its `-EIO` exit:
it ends inside the clock operation while that has not returned, or with the stuck-in-reset
result -1, or with whatever `add_sdhci` gives. -/
theorem msm_sdc_probe_failures (d : Device σ) (H : SdhciHeader)
    (clk : Option (Int → Nat → World σ → Run σ Nat)) (clkd1 clk_rate : Nat)
    (add_sdhci : sdhci_host → World σ → Run σ Int) (base ioaddr : Nat) (w : World σ) :
    (clk = none → msm_sdc_clk_init clk clkd1 clk_rate w = Run.ret 0 w) ∧
    (∀ op, clk = some op → (op (int_of_uint clkd1) clk_rate w).returned = true →
      msm_sdc_clk_init clk clkd1 clk_rate w
        = Run.ret 0 (op (int_of_uint clkd1) clk_rate w).world) ∧
    (∀ r, (msm_sdc_clk_init clk clkd1 clk_rate w).value = some r → r = 0) ∧
    ((∃ w1, msm_sdc_clk_init clk clkd1 clk_rate w = Run.hang w1 ∧
        msm_sdc_probe d H clk clkd1 clk_rate add_sdhci base ioaddr w = Run.hang w1) ∨
      (∃ w5, msm_sdc_probe d H clk clkd1 clk_rate add_sdhci base ioaddr w = Run.ret (-1) w5 ∧
        ∃ l, w5.log = l ++ [Access.print]) ∨
      (∃ host w4, msm_sdc_probe d H clk clkd1 clk_rate add_sdhci base ioaddr w
        = add_sdhci host w4)) := by
  refine ⟨?_, ?_, ?_, ?_⟩
  · intro hn
    rw [hn]
    rfl
  · intro op hs hr
    rw [hs]
    unfold msm_sdc_clk_init
    simp only
    cases hop : op (int_of_uint clkd1) clk_rate w with
    | ret v w1 => rfl
    | hang w1 => rw [hop] at hr; simp [Run.returned] at hr
  · intro r hr
    cases hrun : msm_sdc_clk_init clk clkd1 clk_rate w with
    | hang w1 => rw [hrun] at hr; simp [Run.value] at hr
    | ret r0 w0 =>
      have h := msm_sdc_clk_init_ret clk clkd1 clk_rate w (by rw [hrun]; rfl)
      rw [h] at hr
      simp only [Run.value, Option.some.injEq] at hr
      exact hr.symm
  · cases hrun : msm_sdc_clk_init clk clkd1 clk_rate w with
    | hang w1 =>
      left
      refine ⟨w1, rfl, ?_⟩
      unfold msm_sdc_probe
      rw [hrun]
      rfl
    | ret r0 w0 =>
      right
      have h := msm_sdc_clk_init_ret clk clkd1 clk_rate w (by rw [hrun]; rfl)
      obtain ⟨p, q, hc⟩ := msm_sdc_probe_cases d H clk clkd1 clk_rate add_sdhci base ioaddr w _ h
      rcases hc with ⟨_, w5, e1, e2⟩ | ⟨_, v, hv, w4, _, e1, _⟩
      · left
        exact ⟨w5, e1, (msm_sdc_clk_init clk clkd1 clk_rate w).world.log ++
          [Access.rd (base + SDCC_MCI_POWER) p, Access.wr (base + SDCC_MCI_POWER) (p ||| 128),
            Access.delay 2, Access.rd (base + SDCC_MCI_POWER) q], by rw [e2]; simp⟩
      · right
        exact ⟨_, w4, e1⟩

/-! ### The value returned by `msm_set_periph_rate` -/

theorem ulong_of_int_small (B rate : Nat) (hB : 32 ≤ B) (hr : rate < 2147483648) :
    ulong_of_int B (int_of_uint rate) = rate := by
  have h1 : int_of_uint rate = (rate : Int) := by
    unfold int_of_uint
    have : rate % 4294967296 = rate := Nat.mod_eq_of_lt (by omega)
    rw [this, if_pos hr]
  have h2 : (2 : Int) ^ 31 ≤ 2 ^ B := pow_le_pow_right₀ (by norm_num) (by omega)
  have h3 : (2147483648 : Int) ≤ 2 ^ B := by
    have e : (2 : Int) ^ 31 = 2147483648 := by norm_num
    rw [← e]; exact h2
  unfold ulong_of_int
  rw [h1, Int.emod_eq_of_lt (by omega) (by omega)]
  simp

theorem clk_init_sdc_value (d : Device σ) (fuel base : Nat) (slot : Fin 2) (rate : Nat)
    (w : World σ) (h : (clk_init_sdc d fuel base slot rate w).returned = true) :
    clk_init_sdc d fuel base slot rate w
      = Run.ret (int_of_uint rate) (clk_init_sdc d fuel base slot rate w).world := by
  obtain ⟨_, _, _, _, _, _, hv, _, _⟩ := init_seq_writes d fuel base
    (base + SDCC_AHB_CBCR slot.val) (base + SDCC_APPS_CBCR slot.val) (sdc_regs slot)
    (if rate = 200000000 then 4 else 8) 0 0 CFG_CLK_SRC_GPLL0 (int_of_uint rate) w h
  have hv2 : (clk_init_sdc d fuel base slot rate w).value = some (int_of_uint rate) := hv
  cases hrun : clk_init_sdc d fuel base slot rate w with
  | hang w1 => rw [hrun] at h; simp [Run.returned] at h
  | ret v w1 =>
    rw [hrun] at hv2
    simp only [Run.value, Option.some.injEq] at hv2
    rw [hv2]
    rfl

theorem msm_set_periph_rate_sdc (d : Device σ) (fuel base B : Nat) (slot : Fin 2) (periph : Int)
    (rate : Nat) (w : World σ) (hp : periph = (slot.val : Int))
    (h : (msm_set_periph_rate d fuel base B periph rate w).returned = true) :
    (clk_init_sdc d fuel base slot (rate % 4294967296) w).returned = true ∧
    msm_set_periph_rate d fuel base B periph rate w
      = Run.ret (ulong_of_int B (int_of_uint (rate % 4294967296)))
          (clk_init_sdc d fuel base slot (rate % 4294967296) w).world := by
  have key : msm_set_periph_rate d fuel base B periph rate w
      = (clk_init_sdc d fuel base slot (rate % 4294967296) w).bind fun r w1 =>
          Run.ret (ulong_of_int B r) w1 := by
    subst hp
    unfold msm_set_periph_rate
    fin_cases slot <;> simp
  rw [key] at h ⊢
  cases hrun : clk_init_sdc d fuel base slot (rate % 4294967296) w with
  | hang w1 => rw [hrun] at h; simp [Run.bind, Run.returned] at h
  | ret v w1 =>
    have hr : (clk_init_sdc d fuel base slot (rate % 4294967296) w).returned = true := by
      rw [hrun]; rfl
    have hv := clk_init_sdc_value d fuel base slot (rate % 4294967296) w hr
    rw [hrun] at hv
    simp only [Run.ret.injEq] at hv
    refine ⟨rfl, ?_⟩
    simp only [Run.bind, Run.world]
    rw [hv.1]

/-- Claim C10 fails in the code when `unsigned long` has 64 bits (as on the AArch64 APQ8016).
For the storage identifiers the value returned is not the rate but the rate narrowed to `uint`
on the way into `clk_init_sdc`, read as an `int` on the way out, and widened to `unsigned long`.
Asked for 2147483648 Hz on identifier 0 the routine returns `0xFFFFFFFF80000000`, and asked for
4294967297 Hz on identifier 1 it returns 1. -/
theorem msm_set_periph_rate_narrowing (d : Device σ) (fuel base : Nat) (slot : Fin 2)
    (rate : Nat) (w : World σ) :
    ((msm_set_periph_rate d fuel base 64 (slot.val : Int) rate w).returned = true →
      (msm_set_periph_rate d fuel base 64 (slot.val : Int) rate w).value
        = some (ulong_of_int 64 (int_of_uint (rate % 4294967296)))) ∧
    ulong_of_int 64 (int_of_uint (2147483648 % 4294967296)) = 18446744071562067968 ∧
    (msm_set_periph_rate simDevice 2 simClkBase 64 0 2147483648 simWorld).value
      = some 18446744071562067968 ∧
    (msm_set_periph_rate simDevice 2 simClkBase 64 1 4294967297 simWorld).value = some 1 := by
  refine ⟨fun h => ?_, by decide, by decide, by decide⟩
  rw [(msm_set_periph_rate_sdc d fuel base 64 slot _ rate w rfl h).2]
  rfl

/-- Claim C11, as stated, fails: asked for 400000 Hz on storage identifier 0 the routine programs
divider field 15 (divisor 8, that is 100000000 Hz from the 800 MHz GPLL0) and returns 400000. -/
theorem msm_set_periph_rate_400000 :
    (msm_set_periph_rate simDevice 2 simClkBase 64 0 400000 simWorld).value = some 400000 ∧
    writesOf (msm_set_periph_rate simDevice 2 simClkBase 64 0 400000 simWorld).world.log
      = [(simClkBase + SDCC_AHB_CBCR 0, 1), (simClkBase + (sdc_regs 0).M, 0),
          (simClkBase + (sdc_regs 0).N, 0), (simClkBase + (sdc_regs 0).D, 4294967295),
          (simClkBase + (sdc_regs 0).cfg_rcgr, 271), (simClkBase + (sdc_regs 0).cmd_rcgr, 1),
          (simClkBase + APCS_GPLL_ENA_VOTE, 1), (simClkBase + SDCC_APPS_CBCR 0, 1)] ∧
    271 &&& 31 = 2 * 8 - 1 ∧ 800000000 / 8 ≠ 400000 := by
  decide

/-- Claim C11, amended: for each storage identifier (0 and 1) and every requested rate below
`2^31`, on a target whose `unsigned long` has at least 32 bits, a call of `msm_set_periph_rate`
that returns gives back the requested rate itself, while the divider field it has programmed is
7 (divisor 4) for a request of 200000000 and 15 (divisor 8) for any other; so the value returned
is the frequency 800 MHz / divisor exactly when the request is 200000000 or 100000000. -/
theorem msm_set_periph_rate_requested (d : Device σ) (fuel base B : Nat) (slot : Fin 2)
    (rate : Nat) (w : World σ) (hB : 32 ≤ B) (hr : rate < 2147483648)
    (h : (msm_set_periph_rate d fuel base B (slot.val : Int) rate w).returned = true) :
    (msm_set_periph_rate d fuel base B (slot.val : Int) rate w).value = some rate ∧
    (∃ c, (base + (sdc_regs slot).cfg_rcgr, c)
        ∈ writesOf (msm_set_periph_rate d fuel base B (slot.val : Int) rate w).world.log ∧
      c &&& 31 = 2 * (if rate = 200000000 then 4 else 8) - 1) ∧
    (rate = 800000000 / (if rate = 200000000 then 4 else 8)
      ↔ rate = 200000000 ∨ rate = 100000000) := by
  obtain ⟨h1, h2⟩ := msm_set_periph_rate_sdc d fuel base B slot _ rate w rfl h
  have e : rate % 4294967296 = rate := Nat.mod_eq_of_lt (by omega)
  rw [e] at h1 h2
  refine ⟨?_, ?_, ?_⟩
  · rw [h2, ulong_of_int_small B rate hB hr]
    rfl
  · obtain ⟨a, c, x, votes, p, _, _, hw, _⟩ := init_seq_writes d fuel base
      (base + SDCC_AHB_CBCR slot.val) (base + SDCC_APPS_CBCR slot.val) (sdc_regs slot)
      (if rate = 200000000 then 4 else 8) 0 0 CFG_CLK_SRC_GPLL0 (int_of_uint rate) w h1
    refine ⟨rcg_cfg c (if rate = 200000000 then 4 else 8) CFG_CLK_SRC_GPLL0 (rcg_n_val 0 0),
      ?_, ?_⟩
    · rw [h2]
      show _ ∈ writesOf (clk_init_sdc d fuel base slot rate w).world.log
      have hw2 : writesOf (clk_init_sdc d fuel base slot rate w).world.log = _ := hw
      rw [hw2]
      simp
    · rw [rcg_cfg_low]
      split <;> decide
  · split <;> omega

theorem msm_set_periph_rate_requested_witness :
    (msm_set_periph_rate simDevice 2 simClkBase 64 ((1 : Fin 2).val : Int) 100000000
        simWorld).value = some 100000000 ∧
    (∃ c, (simClkBase + (sdc_regs 1).cfg_rcgr, c)
        ∈ writesOf (msm_set_periph_rate simDevice 2 simClkBase 64 ((1 : Fin 2).val : Int)
            100000000 simWorld).world.log ∧
      c &&& 31 = 2 * (if 100000000 = 200000000 then 4 else 8) - 1) ∧
    (100000000 = 800000000 / (if 100000000 = 200000000 then 4 else 8)
      ↔ 100000000 = 200000000 ∨ 100000000 = 100000000) :=
  msm_set_periph_rate_requested simDevice 2 simClkBase 64 1 100000000 simWorld (by decide)
    (by decide) (by decide)

/-- Claim C12: for every peripheral identifier other than 0 (SDC1), 1 (SDC2) and 4 (UART2), and
for every requested rate, `msm_set_periph_rate` returns 0 at once: the world it returns in is
the one it was called in, so it has made no register read or write. -/
theorem msm_set_periph_rate_unknown (d : Device σ) (fuel base B : Nat) (periph : Int)
    (rate : Nat) (w : World σ) (h0 : periph ≠ 0) (h1 : periph ≠ 1) (h4 : periph ≠ 4) :
    msm_set_periph_rate d fuel base B periph rate w = Run.ret 0 w := by
  unfold msm_set_periph_rate
  simp [h0, h1, h4]

theorem msm_set_periph_rate_unknown_witness :
    msm_set_periph_rate simDevice 2 simClkBase 64 2 400000 simWorld = Run.ret 0 simWorld :=
  msm_set_periph_rate_unknown simDevice 2 simClkBase 64 2 400000 simWorld (by decide) (by decide)
    (by decide)

theorem or_one_of_bit0 (v : Nat) (h : v &&& 1 ≠ 0) : v ||| 1 = v := by
  apply Nat.eq_of_testBit_eq
  intro i
  by_cases hi : i = 0
  · subst hi
    have h2 : v % 2 = 1 := by
      rw [Nat.and_one_is_mod] at h
      omega
    have : v.testBit 0 = true := by
      rw [Nat.testBit_zero]
      simp [h2]
    simp [Nat.testBit_or, this]
  · exact or_one_testBit v i hi

/-- Claim C13 fails in the code.  For each slot `s` the two branch registers that `clk_init_sdc`
enables lie in the block at `0x41000 + s * 0x1000`, while the generator registers of
`sdc_regs[s]` lie in the block at `0x42000 + s * 0x1000`, so no single block base fits; the
addresses written for slot 0 show it (`0x4101C` and `0x41018` against `0x42004` ... `0x42014`). -/
theorem clk_init_sdc_two_blocks (s : Fin 2) :
    (SDCC_AHB_CBCR s.val = (0x41000 + s.val * 0x1000) + 0x1C ∧
      SDCC_APPS_CBCR s.val = (0x41000 + s.val * 0x1000) + 0x18 ∧
      (sdc_regs s).cmd_rcgr = (0x42000 + s.val * 0x1000) + 0x04 ∧
      (sdc_regs s).cfg_rcgr = (0x42000 + s.val * 0x1000) + 0x08 ∧
      (sdc_regs s).M = (0x42000 + s.val * 0x1000) + 0x0C ∧
      (sdc_regs s).N = (0x42000 + s.val * 0x1000) + 0x10 ∧
      (sdc_regs s).D = (0x42000 + s.val * 0x1000) + 0x14) ∧
    (¬ ∃ B, SDCC_AHB_CBCR s.val = B + 0x1C ∧ (sdc_regs s).cmd_rcgr = B + 0x04) ∧
    (writesOf (clk_init_sdc simDevice 2 simClkBase 0 400000 simWorld).world.log).map Prod.fst
      = [simClkBase + 0x4101C, simClkBase + 0x4200C, simClkBase + 0x42010, simClkBase + 0x42014,
          simClkBase + 0x42008, simClkBase + 0x42004, simClkBase + 0x45000,
          simClkBase + 0x41018] := by
  refine ⟨?_, ?_, by decide⟩
  · fin_cases s <;> decide
  · rintro ⟨B, h1, h2⟩
    fin_cases s <;> simp [SDCC_AHB_CBCR, sdc_regs, SDCC_CMD_RCGR] at h1 h2 <;> omega

/-- Claim C14: `clk_enable_cbc` reads the branch control register it was given (value `v`),
writes `v` OR bit 0 to that same register, and from then on only reads it: the write is its only
one.  Every bit other than bit 0 of the written value is the bit read, and when the enable bit
was already set in `v` the written value is `v` itself. -/
theorem clk_enable_cbc_one_write (d : Device σ) (fuel cbcr : Nat) (w : World σ) :
    (∃ polls, (clk_enable_cbc d fuel cbcr w).world.log
        = w.log ++ [Access.rd cbcr (readl d cbcr w).1,
            Access.wr cbcr ((readl d cbcr w).1 ||| 1)] ++ polls ∧
      ∀ e ∈ polls, ∃ y, e = Access.rd cbcr y) ∧
    writesOf (clk_enable_cbc d fuel cbcr w).world.log
      = writesOf w.log ++ [(cbcr, (readl d cbcr w).1 ||| 1)] ∧
    (∀ i, i ≠ 0 → ((readl d cbcr w).1 ||| 1).testBit i = (readl d cbcr w).1.testBit i) ∧
    ((readl d cbcr w).1 &&& CBCR_BRANCH_ENABLE_BIT ≠ 0 →
      (readl d cbcr w).1 ||| 1 = (readl d cbcr w).1) :=
  ⟨clk_enable_cbc_log d fuel cbcr w, clk_enable_cbc_writes d fuel cbcr w,
    fun i hi => or_one_testBit _ i hi, fun h => or_one_of_bit0 _ h⟩

/-- Claim C15: `msm_sdc_remove` makes exactly one access, the write of 0 to the
host-controller-mode register at controller base + `0x78`, and returns 0. -/
theorem msm_sdc_remove_one_write (d : Device σ) (base : Nat) (w : World σ) :
    (msm_sdc_remove d base w).1 = 0 ∧
    (msm_sdc_remove d base w).2.log = w.log ++ [Access.wr (base + 0x78) 0] ∧
    writesOf (msm_sdc_remove d base w).2.log = writesOf w.log ++ [(base + 0x78, 0)] := by
  have e : (msm_sdc_remove d base w).2.log = w.log ++ [Access.wr (base + 0x78) 0] := by
    simp [msm_sdc_remove, writel, SDCC_MCI_HC_MODE]
  refine ⟨rfl, e, ?_⟩
  rw [e, writesOf_append]
  rfl

/-! ### Complete logs, with the last poll read -/

theorem spin_log_full (d : Device σ) (addr : Nat) (busy : Nat → Bool) (fuel : Nat)
    (w : World σ) :
    ∃ polls, (spin d addr busy fuel w).world.log = w.log ++ polls ∧
      (∀ e ∈ polls, ∃ v, e = Access.rd addr v) ∧
      ((spin d addr busy fuel w).returned = true →
        ∃ waits y, polls = waits ++ [Access.rd addr y] ∧ busy y = false ∧
          ∀ e ∈ waits, ∃ v, e = Access.rd addr v ∧ busy v = true) := by
  obtain ⟨polls, h1, h2⟩ := spin_log d addr busy fuel w
  refine ⟨polls, h1, h2, fun hr => ?_⟩
  obtain ⟨waits, s, e1, _, e3, e4⟩ := spin_returned d addr busy fuel w hr
  refine ⟨waits, _, ?_, e3, e4⟩
  rw [h1, List.append_assoc] at e1
  exact List.append_cancel_left e1

theorem clk_bcr_update_log_full (d : Device σ) (fuel a : Nat) (w : World σ) :
    ∃ polls, (clk_bcr_update d fuel a w).world.log
        = w.log ++ [Access.rd a (readl d a w).1, Access.wr a ((readl d a w).1 ||| 1)] ++ polls ∧
      (∀ e ∈ polls, ∃ v, e = Access.rd a v) ∧
      ((clk_bcr_update d fuel a w).returned = true →
        ∃ waits y, polls = waits ++ [Access.rd a y] ∧ y &&& 1 = 0 ∧
          ∀ e ∈ waits, ∃ v, e = Access.rd a v ∧ v &&& 1 ≠ 0) := by
  unfold clk_bcr_update
  simp only
  obtain ⟨polls, h1, h2, h3⟩ := spin_log_full d a (fun v => v &&& APPS_CMD_RGCR_UPDATE != 0) fuel
    (writel d ((readl d a w).1 ||| APPS_CMD_RGCR_UPDATE) a (readl d a w).2)
  have e : APPS_CMD_RGCR_UPDATE = 1 := by decide
  refine ⟨polls, ?_, h2, ?_⟩
  · rw [h1, e, writel_log d _ a _ (or_one_lt _ (readl_lt d a w)), readl_log]
    simp
  · intro hr
    obtain ⟨waits, y, p1, p2, p3⟩ := h3 hr
    refine ⟨waits, y, p1, by simpa [e] using p2, ?_⟩
    intro x hx
    obtain ⟨v, hv1, hv2⟩ := p3 x hx
    exact ⟨v, hv1, by simpa [e] using hv2⟩

/-- Claim C16: for all inputs the accesses of `clk_rcg_set_rate_mnd` are, in this order: the
writes of M, N and D, the read and the write of the config register, the read of the command
register (value `x`) and the write of `x` OR bit 0 to it, and after that only reads of the
command register.  So the update request is issued after the new config value has been written;
and when the routine returns, its last access is a read of the command register that shows bit 0
clear, every poll read before it having shown bit 0 set. -/
theorem clk_rcg_set_rate_mnd_order (d : Device σ) (fuel base : Nat) (regs : bcr_regs)
    (div m n source : Int) (w : World σ) :
    ∃ c v x polls,
      (clk_rcg_set_rate_mnd d fuel base regs div m n source w).world.log
        = w.log ++ [Access.wr (base + regs.M) (rcg_m_val m),
            Access.wr (base + regs.N) (rcg_n_val m n), Access.wr (base + regs.D) (rcg_d_val n),
            Access.rd (base + regs.cfg_rcgr) c, Access.wr (base + regs.cfg_rcgr) v,
            Access.rd (base + regs.cmd_rcgr) x, Access.wr (base + regs.cmd_rcgr) (x ||| 1)]
          ++ polls ∧
      (∀ e ∈ polls, ∃ y, e = Access.rd (base + regs.cmd_rcgr) y) ∧
      ((clk_rcg_set_rate_mnd d fuel base regs div m n source w).returned = true →
        ∃ waits y, polls = waits ++ [Access.rd (base + regs.cmd_rcgr) y] ∧ y &&& 1 = 0 ∧
          ∀ e ∈ waits, ∃ z, e = Access.rd (base + regs.cmd_rcgr) z ∧ z &&& 1 ≠ 0) := by
  unfold clk_rcg_set_rate_mnd
  simp only
  generalize hw3 : writel d (rcg_d_val n) (base + regs.D)
    (writel d (rcg_n_val m n) (base + regs.N) (writel d (rcg_m_val m) (base + regs.M) w)) = w3
  have hl3 : w3.log = w.log ++ [Access.wr (base + regs.M) (rcg_m_val m),
      Access.wr (base + regs.N) (rcg_n_val m n), Access.wr (base + regs.D) (rcg_d_val n)] := by
    rw [← hw3]
    simp [writel, rcg_m_val, rcg_n_val, rcg_d_val, Nat.mod_eq_of_lt (u32_lt _)]
  have hc : (readl d (base + regs.cfg_rcgr) w3).1 < 4294967296 := readl_lt _ _ _
  have hlt := rcg_cfg_lt (readl d (base + regs.cfg_rcgr) w3).1 div source (rcg_n_val m n) hc
  have hw4 := writel_log d _ (base + regs.cfg_rcgr) (readl d (base + regs.cfg_rcgr) w3).2 hlt
  generalize writel d (rcg_cfg (readl d (base + regs.cfg_rcgr) w3).1 div source (rcg_n_val m n))
    (base + regs.cfg_rcgr) (readl d (base + regs.cfg_rcgr) w3).2 = w4 at hw4 ⊢
  obtain ⟨polls, h1, h2, h3⟩ := clk_bcr_update_log_full d fuel (base + regs.cmd_rcgr) w4
  refine ⟨(readl d (base + regs.cfg_rcgr) w3).1,
    rcg_cfg (readl d (base + regs.cfg_rcgr) w3).1 div source (rcg_n_val m n),
    (readl d (base + regs.cmd_rcgr) w4).1, polls, ?_, h2, h3⟩
  rw [h1, hw4, readl_log, hl3]
  simp

theorem rcg_cfg_uart (c : Nat) :
    rcg_cfg c 1 CFG_CLK_SRC_GPLL0 (rcg_n_val 144 15625) &&& 16383 = 8449 := by
  have e0 : rcg_n_val 144 15625 ≠ 0 := by decide
  have e1 : (4294950912 : Nat) &&& 16383 = 0 := by decide
  have e2 : u32 CFG_CLK_SRC_GPLL0 &&& CFG_CLK_SRC_MASK = 256 := by decide
  have e3 : BVAL 4 0 (2 * 1 - 1) = 1 := by decide
  have e4 : BVAL 10 8 CFG_CLK_SRC_GPLL0 = 0 := by decide
  have e5 : CFG_MODE_DUAL_EDGE = 8192 := by decide
  have e6 : (256 ||| (1 ||| 0) ||| 8192 : Nat) &&& 16383 = 8449 := by decide
  unfold rcg_cfg
  simp only [if_pos e0, e2, e3, e4, e5, u32_not_CFG_MASK]
  rw [Nat.or_assoc, Nat.or_assoc, Nat.and_distrib_right, Nat.and_assoc, e1, Nat.and_zero,
    Nat.zero_or, ← Nat.or_assoc, e6]

/-- Claim C17: a run of `clk_init_uart` that returned has programmed the UART2 generator with
M = 144, N = `0xFFFFC386` (the complement of 15625 - 144), D = `0xFFFFC2F6` (the complement of
15625) and a config word whose bits [13:0] are `0x2101` (dual-edge mode, source GPLL0, divider
field 1); and 800000000 * 144 is divisible by 15625, with quotient 7372800 = 64 * 115200. -/
theorem clk_init_uart_values (d : Device σ) (fuel base : Nat) (w : World σ)
    (h : (clk_init_uart d fuel base w).returned = true) :
    (∃ a c x votes p, writesOf (clk_init_uart d fuel base w).world.log
        = writesOf w.log ++ [(base + BLSP1_AHB_CBCR, a ||| 1),
            (base + BLSP1_UART2_APPS_M, 144), (base + BLSP1_UART2_APPS_N, 0xFFFFC386),
            (base + BLSP1_UART2_APPS_D, 0xFFFFC2F6), (base + BLSP1_UART2_APPS_CFG_RCGR, c),
            (base + BLSP1_UART2_APPS_CMD_RCGR, x ||| 1)] ++ votes
          ++ [(base + BLSP1_UART2_APPS_CBCR, p ||| 1)] ∧
      c &&& 0x3FFF = 0x2101) ∧
    4294967295 ^^^ (15625 - 144) = 0xFFFFC386 ∧ 4294967295 ^^^ 15625 = 0xFFFFC2F6 ∧
    800000000 * 144 % 15625 = 0 ∧ 800000000 * 144 / 15625 = 7372800 ∧
    7372800 = 64 * 115200 := by
  refine ⟨?_, by decide, by decide, by decide, by decide, by decide⟩
  obtain ⟨a, c, x, votes, p, _, _, hw, _⟩ := init_seq_writes d fuel base
    (base + BLSP1_AHB_CBCR) (base + BLSP1_UART2_APPS_CBCR) uart2_regs
    1 144 15625 CFG_CLK_SRC_GPLL0 0 w h
  rw [show rcg_m_val 144 = 144 from by decide,
    show rcg_n_val 144 15625 = 0xFFFFC386 from by decide,
    show rcg_d_val 15625 = 0xFFFFC2F6 from by decide] at hw
  have hc := rcg_cfg_uart c
  rw [show rcg_n_val 144 15625 = 0xFFFFC386 from by decide] at hc
  exact ⟨a, _, x, votes, p, hw, hc⟩

theorem clk_init_uart_values_witness :
    (∃ a c x votes p, writesOf (clk_init_uart simDevice 2 simClkBase simWorld).world.log
        = writesOf simWorld.log ++ [(simClkBase + BLSP1_AHB_CBCR, a ||| 1),
            (simClkBase + BLSP1_UART2_APPS_M, 144), (simClkBase + BLSP1_UART2_APPS_N, 0xFFFFC386),
            (simClkBase + BLSP1_UART2_APPS_D, 0xFFFFC2F6),
            (simClkBase + BLSP1_UART2_APPS_CFG_RCGR, c),
            (simClkBase + BLSP1_UART2_APPS_CMD_RCGR, x ||| 1)] ++ votes
          ++ [(simClkBase + BLSP1_UART2_APPS_CBCR, p ||| 1)] ∧
      c &&& 0x3FFF = 0x2101) ∧
    4294967295 ^^^ (15625 - 144) = 0xFFFFC386 ∧ 4294967295 ^^^ 15625 = 0xFFFFC2F6 ∧
    800000000 * 144 % 15625 = 0 ∧ 800000000 * 144 / 15625 = 7372800 ∧
    7372800 = 64 * 115200 :=
  clk_init_uart_values simDevice 2 simClkBase simWorld (by decide)

/-- Claim C18: take a register space in which, counted from the state `sc` (`sg`, `sb`) that
the write of the routine leaves, the polled register shows the awaited bit state (branch-off bit
31 clear; GPLL0 active bit 17 set; update bit 0 clear) at poll read number `N` and not at any
earlier one.  Then, given a budget of more than `N` poll reads, each of `clk_enable_cbc`,
`clk_enable_gpll0` (called while the PLL is not yet active) and `clk_bcr_update` returns, and it
does so with exactly `N + 1` poll reads made, that is at the first read that shows the awaited
state and not before. -/
theorem poll_loops_terminate (d : Device σ) (fuel cbcr base cmd Nc Ng Nb : Nat)
    (wc wg wb : World σ) (sc sg sb : σ)
    (hsc : sc = (writel d ((readl d cbcr wc).1 ||| 1) cbcr (readl d cbcr wc).2).hw)
    (hc : pollValue d cbcr Nc sc &&& CBCR_BRANCH_OFF_BIT = 0)
    (hc' : ∀ k, k < Nc → pollValue d cbcr k sc &&& CBCR_BRANCH_OFF_BIT ≠ 0)
    (hg0 : (readl d (base + GPLL0_STATUS) wg).1 &&& GPLL0_STATUS_ACTIVE = 0)
    (hsg : sg = (writel d ((readl d (base + APCS_GPLL_ENA_VOTE)
        (readl d (base + GPLL0_STATUS) wg).2).1 ||| 1) (base + APCS_GPLL_ENA_VOTE)
        (readl d (base + APCS_GPLL_ENA_VOTE) (readl d (base + GPLL0_STATUS) wg).2).2).hw)
    (hg : pollValue d (base + GPLL0_STATUS) Ng sg &&& GPLL0_STATUS_ACTIVE ≠ 0)
    (hg' : ∀ k, k < Ng → pollValue d (base + GPLL0_STATUS) k sg &&& GPLL0_STATUS_ACTIVE = 0)
    (hsb : sb = (writel d ((readl d cmd wb).1 ||| 1) cmd (readl d cmd wb).2).hw)
    (hb : pollValue d cmd Nb sb &&& APPS_CMD_RGCR_UPDATE = 0)
    (hb' : ∀ k, k < Nb → pollValue d cmd k sb &&& APPS_CMD_RGCR_UPDATE ≠ 0)
    (hfc : Nc < fuel) (hfg : Ng < fuel) (hfb : Nb < fuel) :
    (clk_enable_cbc d fuel cbcr wc = Run.ret () (World.mk (afterReads d cbcr (Nc + 1) sc)
        (wc.log ++ [Access.rd cbcr (readl d cbcr wc).1,
            Access.wr cbcr ((readl d cbcr wc).1 ||| 1)]
          ++ (List.range (Nc + 1)).map (fun k => Access.rd cbcr (pollValue d cbcr k sc))))) ∧
    (clk_enable_gpll0 d fuel base wg = Run.ret ()
      (World.mk (afterReads d (base + GPLL0_STATUS) (Ng + 1) sg)
        (wg.log ++ [Access.rd (base + GPLL0_STATUS) (readl d (base + GPLL0_STATUS) wg).1,
            Access.rd (base + APCS_GPLL_ENA_VOTE) (readl d (base + APCS_GPLL_ENA_VOTE)
              (readl d (base + GPLL0_STATUS) wg).2).1,
            Access.wr (base + APCS_GPLL_ENA_VOTE) ((readl d (base + APCS_GPLL_ENA_VOTE)
              (readl d (base + GPLL0_STATUS) wg).2).1 ||| 1)]
          ++ (List.range (Ng + 1)).map
            (fun k => Access.rd (base + GPLL0_STATUS) (pollValue d (base + GPLL0_STATUS) k sg))))) ∧
    (clk_bcr_update d fuel cmd wb = Run.ret () (World.mk (afterReads d cmd (Nb + 1) sb)
        (wb.log ++ [Access.rd cmd (readl d cmd wb).1,
            Access.wr cmd ((readl d cmd wb).1 ||| 1)]
          ++ (List.range (Nb + 1)).map (fun k => Access.rd cmd (pollValue d cmd k sb))))) := by
  subst hsc hsg hsb
  refine ⟨?_, ?_, ?_⟩
  · unfold clk_enable_cbc
    simp only
    have e : CBCR_BRANCH_ENABLE_BIT = 1 := by decide
    rw [e, spin_first d cbcr _ Nc fuel _ (by simpa using hc) (fun k hk => by simpa using hc' k hk) hfc,
      writel_log d _ cbcr _ (or_one_lt _ (readl_lt d cbcr wc)), readl_log]
    simp
  · rw [clk_enable_gpll0_inactive d fuel base wg hg0]
    have e : APCS_GPLL_ENA_VOTE_GPLL0 = 1 := by decide
    rw [e, spin_first d (base + GPLL0_STATUS) _ Ng fuel _ (by simpa using hg)
        (fun k hk => by simpa using hg' k hk) hfg,
      writel_log d _ _ _ (or_one_lt _ (readl_lt d _ _)), readl_log, readl_log]
    simp
  · unfold clk_bcr_update
    simp only
    have e : APPS_CMD_RGCR_UPDATE = 1 := by decide
    simp only [e] at hb hb' ⊢
    rw [spin_first d cmd _ Nb fuel _ (by simpa using hb) (fun k hk => by simpa using hb' k hk) hfb,
      writel_log d _ cmd _ (or_one_lt _ (readl_lt d cmd wb)), readl_log]
    simp

theorem poll_loops_terminate_witness :
    (clk_enable_cbc (flipDevice 2) 3 100 (World.mk 0 []) = Run.ret () (World.mk (afterReads (flipDevice 2) 100 (2 + 1) 0)
        ((World.mk 0 []).log ++ [Access.rd 100 (readl (flipDevice 2) 100 (World.mk 0 [])).1,
            Access.wr 100 ((readl (flipDevice 2) 100 (World.mk 0 [])).1 ||| 1)]
          ++ (List.range (2 + 1)).map (fun k => Access.rd 100 (pollValue (flipDevice 2) 100 k 0))))) ∧
    (clk_enable_gpll0 (flipDevice 2) 3 0 (World.mk 0 []) = Run.ret ()
      (World.mk (afterReads (flipDevice 2) (0 + GPLL0_STATUS) (2 + 1) 0)
        ((World.mk 0 []).log ++ [Access.rd (0 + GPLL0_STATUS) (readl (flipDevice 2) (0 + GPLL0_STATUS) (World.mk 0 [])).1,
            Access.rd (0 + APCS_GPLL_ENA_VOTE) (readl (flipDevice 2) (0 + APCS_GPLL_ENA_VOTE)
              (readl (flipDevice 2) (0 + GPLL0_STATUS) (World.mk 0 [])).2).1,
            Access.wr (0 + APCS_GPLL_ENA_VOTE) ((readl (flipDevice 2) (0 + APCS_GPLL_ENA_VOTE)
              (readl (flipDevice 2) (0 + GPLL0_STATUS) (World.mk 0 [])).2).1 ||| 1)]
          ++ (List.range (2 + 1)).map
            (fun k => Access.rd (0 + GPLL0_STATUS) (pollValue (flipDevice 2) (0 + GPLL0_STATUS) k 0))))) ∧
    (clk_bcr_update (flipDevice 2) 3 200 (World.mk 0 []) = Run.ret () (World.mk (afterReads (flipDevice 2) 200 (2 + 1) 0)
        ((World.mk 0 []).log ++ [Access.rd 200 (readl (flipDevice 2) 200 (World.mk 0 [])).1,
            Access.wr 200 ((readl (flipDevice 2) 200 (World.mk 0 [])).1 ||| 1)]
          ++ (List.range (2 + 1)).map (fun k => Access.rd 200 (pollValue (flipDevice 2) 200 k 0))))) :=
  poll_loops_terminate (flipDevice 2) 3 100 0 200 2 2 2 (World.mk 0 []) (World.mk 0 [])
    (World.mk 0 []) 0 0 0 rfl (by decide) (by decide) (by decide) rfl (by decide) (by decide)
    rfl (by decide) (by decide) (by decide) (by decide) (by decide)

end Apq8016
